import Mathlib

/-!
A shallow embedding of the asset registry (`src/common/assets.rs`) and the
map import/build pipeline (`src/doom/map/load.rs`) of the ferret engine,
with theorems settling the specification claims about them.

Modelling conventions:
* Machine integers are `Nat`/`Int`; decoded `u16`/`i16` fields keep their
  exact integer values (the source's casts to `f32` are exact for the
  16-bit ranges involved, so `Int` coordinates are a faithful image).
* Fields derived with floating-point arithmetic that no claim mentions
  (`normalize`d normals, `Plane` sets, `AABB2` boxes, the `/ 255.0` light
  scaling, the 16.16 fixed-point division of GL vertices) are either kept
  as raw integers or omitted; a comment marks each omission.
* Fallible Rust code returning `anyhow::Result` becomes `Except String`;
  code that can also panic (slice indexing, `Option::unwrap`) becomes
  `BResult`, which distinguishes `ok` / `err` (an `anyhow` error value) /
  `panic`.
* `HashMap`s become association lists with insert-replaces-existing-key
  semantics; `Vec` becomes `List`.
-/

namespace Ferret

/-- Outcome of running Rust code that may return `Ok`, return `Err`, or
panic. `err` models an `anyhow::Error` propagated with `?`/`bail!`;
`panic` models an actual Rust panic (out-of-bounds indexing,
`Option::unwrap` on `None`). -/
inductive BResult (α : Type) where
  | ok : α → BResult α
  | err : String → BResult α
  | panic : String → BResult α
deriving Repr, DecidableEq

def BResult.bind {α β : Type} : BResult α → (α → BResult β) → BResult β
  | .ok a, f => f a
  | .err m, _ => .err m
  | .panic m, _ => .panic m

instance : Monad BResult where
  pure := BResult.ok
  bind := BResult.bind

/-- `true` iff the computation panicked. -/
def BResult.isPanic {α : Type} : BResult α → Bool
  | .panic _ => true
  | _ => false

/-- Rust `Vec` indexing `v[i]`: panics when the index is out of bounds. -/
def vecGet {α : Type} (l : List α) (i : Nat) : BResult α :=
  match l[i]? with
  | some a => .ok a
  | Option.none => .panic "index out of bounds"

/-! ### Association-list maps

`FnvHashMap` is modelled by an association list where `alistInsert`
replaces the binding of an existing key (one binding per key, like a
hash map). -/

def alistFind {κ β : Type} [DecidableEq κ] (k : κ) : List (κ × β) → Option β
  | [] => Option.none
  | (k', v) :: rest => if k = k' then some v else alistFind k rest

def alistInsert {κ β : Type} [DecidableEq κ] (k : κ) (v : β) : List (κ × β) → List (κ × β)
  | [] => [(k, v)]
  | (k', v') :: rest => if k = k' then (k, v) :: rest else (k', v') :: alistInsert k v rest

/-! ### The asset registry (`src/common/assets.rs`)

`AssetStorage` keys one `AssetStorageTyped` per asset type; the claims
concern the behaviour within a single asset type, so `Store δ ι` embeds
one `AssetStorageTyped` (`δ` = `A::Data`, `ι` = `A::Intermediate`)
together with the shared `HandleAllocator`.

Handles: an `AssetHandle` is an `Arc<u64>` id; the name map stores weak
handles. Within the operations modelled here (`load`,
`insert_with_name`, `get_by_name`, all before any build phase) every
allocated handle is kept alive by the storage's own strong clones (the
`unbuilt` queue entry or the `handles` list), so a weak handle found in
`names` always upgrades; handles are therefore modelled by their ids. -/

structure HandleAllocator where
  highest_id : Nat
  unused_ids : List Nat
deriving Repr, DecidableEq

/-- `HandleAllocator::allocate`: pop a reusable id, else bump the counter.
(The source never refills `unused_ids`.) -/
def HandleAllocator.allocate : HandleAllocator → Nat × HandleAllocator
  | ⟨h, []⟩ => (h + 1, ⟨h + 1, []⟩)
  | ⟨h, id :: rest⟩ => (id, ⟨h, rest⟩)

/-- One `AssetStorageTyped<A>` plus the registry's `HandleAllocator`. -/
structure Store (δ ι : Type) where
  assets : List (Nat × δ)
  handles : List Nat
  names : List (String × Nat)
  unbuilt : List (Nat × Except String ι × String)
  allocator : HandleAllocator

def Store.empty {δ ι : Type} : Store δ ι :=
  { assets := [], handles := [], names := [], unbuilt := [], allocator := ⟨0, []⟩ }

/-- `AssetStorage::load`: return the existing live handle for `name`,
else allocate a handle, register the name mapping, run the type's import
step (`imp`, capturing failure as a value), and enqueue the entry for
later building. -/
def Store.load {δ ι : Type} (imp : String → Except String ι) (name : String)
    (s : Store δ ι) : Nat × Store δ ι :=
  match alistFind name s.names with
  | some id => (id, s)
  | Option.none =>
    let (id, alloc) := s.allocator.allocate
    (id, { s with
            allocator := alloc,
            names := alistInsert name id s.names,
            unbuilt := s.unbuilt ++ [(id, imp name, name)] })

/-- `AssetStorage::insert_with_name`: reuse the existing handle for a
mapped name (replacing the stored value in place), else allocate a new
handle, store the value, and register the handle and name. -/
def Store.insert_with_name {δ ι : Type} (name : String) (v : δ)
    (s : Store δ ι) : Nat × Store δ ι :=
  match alistFind name s.names with
  | some id => (id, { s with assets := alistInsert id v s.assets })
  | Option.none =>
    let (id, alloc) := s.allocator.allocate
    (id, { s with
            allocator := alloc,
            assets := alistInsert id v s.assets,
            handles := s.handles ++ [id],
            names := alistInsert name id s.names })

/-- `AssetStorage::get_by_name`: name → weak handle → upgrade → data. -/
def Store.get_by_name {δ ι : Type} (name : String) (s : Store δ ι) : Option δ :=
  (alistFind name s.names).bind fun id => alistFind id s.assets

/-- Number of entries in the unbuilt queue whose originating name is `name`. -/
def countUnbuilt {ι : Type} (name : String) (l : List (Nat × Except String ι × String)) : Nat :=
  l.countP fun e => e.2.2 == name

/-! ### Intermediate map data (`MapData` in `src/doom/map/load.rs`) -/

/-- 2D vector; `i16` lump coordinates cast to `f32` are exact, kept as `Int`. -/
abbrev Vec2 := Int × Int

structure LinedefData where
  vertex_indices : Nat × Nat
  flags : Nat
  special_type : Nat
  sector_tag : Nat
  sidedef_indices : Option Nat × Option Nat
deriving Repr, DecidableEq

structure SidedefData where
  texture_offset : Vec2
  top_texture_name : Option String
  bottom_texture_name : Option String
  middle_texture_name : Option String
  sector_index : Nat
deriving Repr, DecidableEq

structure SectorData where
  floor_height : Int
  ceiling_height : Int
  floor_flat_name : Option String
  ceiling_flat_name : Option String
  light_level : Nat
  special_type : Nat
  sector_tag : Nat
deriving Repr, DecidableEq

inductive EitherVertex where
  | normal (i : Nat)
  | gl (i : Nat)
deriving Repr, DecidableEq

inductive Side where
  | right
  | left
deriving Repr, DecidableEq

structure GLSegData where
  vertex_indices : EitherVertex × EitherVertex
  linedef_index : Option Nat
  linedef_side : Side
  partner_seg_index : Option Nat
deriving Repr, DecidableEq

structure GLSSectData where
  seg_count : Nat
  first_seg_index : Nat
deriving Repr, DecidableEq

inductive NodeChild where
  | subsector (i : Nat)
  | node (i : Nat)
deriving Repr, DecidableEq

/-- A child bounding box as read: the four raw `i16` extents
(top, bottom), (left, right) in read order; `AABB2::from_extents` is
represented by the raw values. -/
abbrev BBox := (Int × Int) × (Int × Int)

structure GLNodeData where
  partition_point : Vec2
  partition_dir : Vec2
  child_bboxes : BBox × BBox
  child_indices : NodeChild × NodeChild
deriving Repr, DecidableEq

structure MapData where
  linedefs : List LinedefData
  sidedefs : List SidedefData
  vertexes : List Vec2
  sectors : List SectorData
  gl_vert : List Vec2
  gl_segs : List GLSegData
  gl_ssect : List GLSSectData
  gl_nodes : List GLNodeData
deriving Repr, DecidableEq

structure ThingData where
  position : Vec2
  angle : Nat
  doomednum : Nat
  flags : Nat
deriving Repr, DecidableEq

/-! ### Lump decoders

Each decoder reads fixed-size little-endian records from a byte buffer
until it is exhausted (`while position < len`), failing with an
`UnexpectedEof`-style error when a record is truncated. A buffer is a
`List Nat` of byte values; a record reader checks that enough bytes
remain, decodes the fields at their offsets and consumes the record. -/

def byteAt (bytes : List Nat) (i : Nat) : Nat := bytes.getD i 0

/-- Little-endian `u16` at offset `i`. -/
def readU16at (bytes : List Nat) (i : Nat) : Nat :=
  byteAt bytes i + 256 * byteAt bytes (i + 1)

/-- Reinterpret a `u16` value as a signed `i16`. -/
def toI16 (v : Nat) : Int :=
  if v < 32768 then (v : Int) else (v : Int) - 65536

def readI16at (bytes : List Nat) (i : Nat) : Int := toI16 (readU16at bytes i)

/-- A `u16` index field where `0xFFFF` means "no reference". -/
def sideIndex (v : Nat) : Option Nat :=
  if v = 0xFFFF then Option.none else some v

/-- GL vertex reference: bit 15 selects the GL-vertex array. -/
def vertexRef (v : Nat) : EitherVertex :=
  if v &&& 0x8000 ≠ 0 then .gl (v &&& 0x7FFF) else .normal v

/-- GL node child reference: bit 15 selects a leaf (subsector). -/
def childRef (v : Nat) : NodeChild :=
  if v &&& 0x8000 ≠ 0 then .subsector (v &&& 0x7FFF) else .node v

/-- Linedef side field: 0 is the right side, anything else the left. -/
def sideOf (v : Nat) : Side :=
  if v = 0 then .right else .left

/-- UTF-8 decoding as performed by `std::str::from_utf8`: rejects
continuation bytes in lead position, overlong encodings, surrogates and
codepoints above U+10FFFF. Returns the decoded characters. -/
def utf8Decode : List Nat → Option (List Char)
  | [] => some []
  | b :: rest =>
    if b < 0x80 then
      (utf8Decode rest).map (Char.ofNat b :: ·)
    else if b < 0xC2 then
      Option.none
    else if b < 0xE0 then
      match rest with
      | c1 :: rest2 =>
        if 0x80 ≤ c1 ∧ c1 < 0xC0 then
          (utf8Decode rest2).map (Char.ofNat ((b - 0xC0) * 64 + (c1 - 0x80)) :: ·)
        else Option.none
      | [] => Option.none
    else if b < 0xF0 then
      match rest with
      | c1 :: c2 :: rest2 =>
        let lo1 := if b = 0xE0 then 0xA0 else 0x80
        let hi1 := if b = 0xED then 0xA0 else 0xC0
        if (lo1 ≤ c1 ∧ c1 < hi1) ∧ (0x80 ≤ c2 ∧ c2 < 0xC0) then
          (utf8Decode rest2).map
            (Char.ofNat ((b - 0xE0) * 4096 + (c1 - 0x80) * 64 + (c2 - 0x80)) :: ·)
        else Option.none
      | _ => Option.none
    else if b < 0xF5 then
      match rest with
      | c1 :: c2 :: c3 :: rest2 =>
        let lo1 := if b = 0xF0 then 0x90 else 0x80
        let hi1 := if b = 0xF4 then 0x90 else 0xC0
        if (lo1 ≤ c1 ∧ c1 < hi1) ∧ (0x80 ≤ c2 ∧ c2 < 0xC0) ∧ (0x80 ≤ c3 ∧ c3 < 0xC0) then
          (utf8Decode rest2).map
            (Char.ofNat ((b - 0xF0) * 262144 + (c1 - 0x80) * 4096 + (c2 - 0x80) * 64 + (c3 - 0x80)) :: ·)
        else Option.none
      | _ => Option.none
    else Option.none

/-- `str::trim_end_matches('\0')`: drop all trailing NUL characters. -/
def trimEndZeros (cs : List Char) : List Char :=
  (cs.reverse.dropWhile fun c => c == Char.ofNat 0).reverse

/-- Decode an 8-byte fixed-width name field: `b"-\0\0\0\0\0\0\0"` means
"no texture"; otherwise the bytes must be valid UTF-8 (outer `Option` is
the UTF-8 success) and trailing NULs are trimmed. -/
def decodeName (name8 : List Nat) : Option (Option String) :=
  if name8 = [0x2D, 0, 0, 0, 0, 0, 0, 0] then some Option.none
  else (utf8Decode name8).map fun cs => some (String.mk (trimEndZeros cs))

/-- The 8 bytes of a name field at offset `i`. -/
def slice8 (bytes : List Nat) (i : Nat) : List Nat := (bytes.drop i).take 8

def eofMsg : String := "failed to fill whole buffer"

/-- One vertexes record: `{i16 x, i16 y}` (4 bytes). -/
def readVertex (bytes : List Nat) : Except String (Vec2 × List Nat) :=
  if 4 ≤ bytes.length then
    .ok ((readI16at bytes 0, readI16at bytes 2), bytes.drop 4)
  else .error eofMsg

/-- One linedefs record (14 bytes). `LinedefFlags::from_bits_truncate`
keeps only the 8 defined flag bits. -/
def readLinedef (bytes : List Nat) : Except String (LinedefData × List Nat) :=
  if 14 ≤ bytes.length then
    .ok ({ vertex_indices := (readU16at bytes 0, readU16at bytes 2),
           flags := readU16at bytes 4 &&& 0xFF,
           special_type := readU16at bytes 6,
           sector_tag := readU16at bytes 8,
           sidedef_indices := (sideIndex (readU16at bytes 10), sideIndex (readU16at bytes 12)) },
         bytes.drop 14)
  else .error eofMsg

/-- One things record (10 bytes). `ThingFlags::from_bits_truncate` keeps
only the 4 defined flag bits. The angle is kept as the raw `u16` degree
value (`Angle::from_degrees` over `f64` abstracted). -/
def readThing (bytes : List Nat) : Except String (ThingData × List Nat) :=
  if 10 ≤ bytes.length then
    .ok ({ position := (readI16at bytes 0, readI16at bytes 2),
           angle := readU16at bytes 4,
           doomednum := readU16at bytes 6,
           flags := readU16at bytes 8 &&& 0xF },
         bytes.drop 10)
  else .error eofMsg

/-- One sidedefs record (30 bytes); fails when a name field is invalid
UTF-8, as `std::str::from_utf8` does in the source. -/
def readSidedef (bytes : List Nat) : Except String (SidedefData × List Nat) :=
  if 30 ≤ bytes.length then
    match decodeName (slice8 bytes 4), decodeName (slice8 bytes 12), decodeName (slice8 bytes 20) with
    | some t, some b, some m =>
      .ok ({ texture_offset := (readI16at bytes 0, readI16at bytes 2),
             top_texture_name := t,
             bottom_texture_name := b,
             middle_texture_name := m,
             sector_index := readU16at bytes 28 },
           bytes.drop 30)
    | _, _, _ => .error "invalid utf-8 sequence"
  else .error eofMsg

/-- One sectors record (26 bytes); the light level is kept as the raw
`u16` (the source scales it by `/ 255.0` into `f32`). -/
def readSector (bytes : List Nat) : Except String (SectorData × List Nat) :=
  if 26 ≤ bytes.length then
    match decodeName (slice8 bytes 4), decodeName (slice8 bytes 12) with
    | some ff, some cf =>
      .ok ({ floor_height := readI16at bytes 0,
             ceiling_height := readI16at bytes 2,
             floor_flat_name := ff,
             ceiling_flat_name := cf,
             light_level := readU16at bytes 20,
             special_type := readU16at bytes 22,
             sector_tag := readU16at bytes 24 },
           bytes.drop 26)
    | _, _ => .error "invalid utf-8 sequence"
  else .error eofMsg

/-- One GL-segs record (10 bytes). -/
def readGLSeg (bytes : List Nat) : Except String (GLSegData × List Nat) :=
  if 10 ≤ bytes.length then
    .ok ({ vertex_indices := (vertexRef (readU16at bytes 0), vertexRef (readU16at bytes 2)),
           linedef_index := sideIndex (readU16at bytes 4),
           linedef_side := sideOf (readU16at bytes 6),
           partner_seg_index := sideIndex (readU16at bytes 8) },
         bytes.drop 10)
  else .error eofMsg

/-- One GL-subsectors record (4 bytes). -/
def readGLSSect (bytes : List Nat) : Except String (GLSSectData × List Nat) :=
  if 4 ≤ bytes.length then
    .ok ({ seg_count := readU16at bytes 0, first_seg_index := readU16at bytes 2 },
         bytes.drop 4)
  else .error eofMsg

/-- One GL-nodes record (28 bytes). -/
def readGLNode (bytes : List Nat) : Except String (GLNodeData × List Nat) :=
  if 28 ≤ bytes.length then
    .ok ({ partition_point := (readI16at bytes 0, readI16at bytes 2),
           partition_dir := (readI16at bytes 4, readI16at bytes 6),
           child_bboxes :=
             (((readI16at bytes 8, readI16at bytes 10), (readI16at bytes 12, readI16at bytes 14)),
              ((readI16at bytes 16, readI16at bytes 18), (readI16at bytes 20, readI16at bytes 22))),
           child_indices := (childRef (readU16at bytes 24), childRef (readU16at bytes 26)) },
         bytes.drop 28)
  else .error eofMsg

/-- The decode loop `while position < len { records.push(read?) }`.
`fuel` bounds the recursion; every record reader consumes at least one
byte on success, so `fuel = bytes.length` never runs out. -/
def decodeLoop {α : Type} (readRec : List Nat → Except String (α × List Nat)) :
    Nat → List Nat → Except String (List α)
  | _, [] => .ok []
  | 0, _ :: _ => .error "fuel exhausted"
  | fuel + 1, b :: rest =>
    match readRec (b :: rest) with
    | .error e => .error e
    | .ok (a, rest') =>
      match decodeLoop readRec fuel rest' with
      | .error e => .error e
      | .ok as => .ok (a :: as)

/-- `VertexesFormat::import` (record layout; blob naming elided). -/
def decodeVertexes (bytes : List Nat) : Except String (List Vec2) :=
  decodeLoop readVertex bytes.length bytes

/-- `LinedefsFormat::import`. -/
def decodeLinedefs (bytes : List Nat) : Except String (List LinedefData) :=
  decodeLoop readLinedef bytes.length bytes

/-- `ThingsFormat::import`. -/
def decodeThings (bytes : List Nat) : Except String (List ThingData) :=
  decodeLoop readThing bytes.length bytes

/-- `SidedefsFormat::import`. -/
def decodeSidedefs (bytes : List Nat) : Except String (List SidedefData) :=
  decodeLoop readSidedef bytes.length bytes

/-- `SectorsFormat::import`. -/
def decodeSectors (bytes : List Nat) : Except String (List SectorData) :=
  decodeLoop readSector bytes.length bytes

/-- `GLSegsFormat::import`. -/
def decodeGLSegs (bytes : List Nat) : Except String (List GLSegData) :=
  decodeLoop readGLSeg bytes.length bytes

/-- `GLSSectFormat::import`. -/
def decodeGLSSects (bytes : List Nat) : Except String (List GLSSectData) :=
  decodeLoop readGLSSect bytes.length bytes

/-- `GLNodesFormat::import`. -/
def decodeGLNodes (bytes : List Nat) : Except String (List GLNodeData) :=
  decodeLoop readGLNode bytes.length bytes

/-! ### The cross-reference validator (`Map::import`, lines 52–143)

Each `ensure!` aborts on the first violation; the per-record index and
value in the error messages are elided (no claim inspects them). -/

def linedefRefsOk (numSidedefs : Nat) (ld : LinedefData) : Bool :=
  (match ld.sidedef_indices.1 with
   | some x => decide (x < numSidedefs)
   | Option.none => true) &&
  (match ld.sidedef_indices.2 with
   | some x => decide (x < numSidedefs)
   | Option.none => true)

def segRefsOk (numLinedefs numGLVert numVert numSegs : Nat) (seg : GLSegData) : Bool :=
  (match seg.linedef_index with
   | some x => decide (x < numLinedefs)
   | Option.none => true) &&
  (match seg.vertex_indices.1 with
   | .gl i => decide (i < numGLVert)
   | .normal i => decide (i < numVert)) &&
  (match seg.vertex_indices.2 with
   | .gl i => decide (i < numGLVert)
   | .normal i => decide (i < numVert)) &&
  (match seg.partner_seg_index with
   | some x => decide (x < numSegs)
   | Option.none => true)

def ssectRefsOk (numSegs : Nat) (ssect : GLSSectData) : Bool :=
  decide (ssect.first_seg_index < numSegs) &&
  decide (ssect.first_seg_index + ssect.seg_count ≤ numSegs)

def nodeChildOk (numSsect numNodes : Nat) : NodeChild → Bool
  | .subsector i => decide (i < numSsect)
  | .node i => decide (i < numNodes)

def nodeRefsOk (numSsect numNodes : Nat) (node : GLNodeData) : Bool :=
  nodeChildOk numSsect numNodes node.child_indices.1 &&
  nodeChildOk numSsect numNodes node.child_indices.2

def checkSidedefs (numSectors : Nat) : List SidedefData → Except String Unit
  | [] => .ok ()
  | sd :: rest =>
    if sd.sector_index < numSectors then checkSidedefs numSectors rest
    else .error "Sidedef has invalid sector index"

def checkLinedefs (numSidedefs : Nat) : List LinedefData → Except String Unit
  | [] => .ok ()
  | ld :: rest =>
    if linedefRefsOk numSidedefs ld then checkLinedefs numSidedefs rest
    else .error "Linedef has invalid sidedef index"

def checkSegs (numLinedefs numGLVert numVert numSegs : Nat) : List GLSegData → Except String Unit
  | [] => .ok ()
  | seg :: rest =>
    if segRefsOk numLinedefs numGLVert numVert numSegs seg then
      checkSegs numLinedefs numGLVert numVert numSegs rest
    else .error "Seg has an invalid index"

def checkSsects (numSegs : Nat) : List GLSSectData → Except String Unit
  | [] => .ok ()
  | ssect :: rest =>
    if ssectRefsOk numSegs ssect then checkSsects numSegs rest
    else .error "Subsector has an invalid seg range"

def checkNodes (numSsect numNodes : Nat) : List GLNodeData → Except String Unit
  | [] => .ok ()
  | node :: rest =>
    if nodeRefsOk numSsect numNodes node then checkNodes numSsect numNodes rest
    else .error "Node has an invalid child index"

/-- The cross-reference verification block of `Map::import`: the checks
run in source order, aborting the import at the first violation. -/
def validateMapData (md : MapData) : Except String Unit := do
  checkSidedefs md.sectors.length md.sidedefs
  checkLinedefs md.sidedefs.length md.linedefs
  checkSegs md.linedefs.length md.gl_vert.length md.vertexes.length md.gl_segs.length md.gl_segs
  checkSsects md.gl_segs.length md.gl_ssect
  checkNodes md.gl_ssect.length md.gl_nodes.length md.gl_nodes

/-- The bounds the validator actually enforces, as one predicate:
sidedef→sector, linedef→sidedef (both slots), seg→linedef, seg→vertex
(against the tagged array), seg→partner-seg, subsector seg-range and
node→child. (Note: linedef→vertex is absent.) -/
def checkedRefsOk (md : MapData) : Prop :=
  (∀ sd ∈ md.sidedefs, sd.sector_index < md.sectors.length) ∧
  (∀ ld ∈ md.linedefs, linedefRefsOk md.sidedefs.length ld = true) ∧
  (∀ seg ∈ md.gl_segs,
    segRefsOk md.linedefs.length md.gl_vert.length md.vertexes.length md.gl_segs.length seg = true) ∧
  (∀ ssect ∈ md.gl_ssect, ssectRefsOk md.gl_segs.length ssect = true) ∧
  (∀ node ∈ md.gl_nodes, nodeRefsOk md.gl_ssect.length md.gl_nodes.length node = true)

/-- Whether every linedef→vertex index is in bounds — the one index family
the validator does not check. -/
def linedefVertexesOk (md : MapData) : Bool :=
  md.linedefs.all fun ld =>
    decide (ld.vertex_indices.1 < md.vertexes.length) &&
    decide (ld.vertex_indices.2 < md.vertexes.length)

/-! ### The map builder (`build_map`, lines 158–452) -/

/-- `TextureType` from `src/doom/map/textures.rs`; the handle is the
asset-registry handle id. -/
inductive TextureType where
  | normal (handle : Nat)
  | sky
  | none
deriving Repr, DecidableEq

def TextureType.is_sky : TextureType → Bool
  | .sky => true
  | _ => false

/-- `SolidMask` lives in `src/doom/physics.rs`, which is not among the
provided sources; `build_map` only ever constructs `SolidMask::all()`,
`SolidMask::MONSTER` and `SolidMask::empty()`, so those three values are
the whole embedded type. -/
inductive SolidMask where
  | all
  | monster
  | empty
deriving Repr, DecidableEq

structure Sector where
  interval : Int × Int
  floor_texture : TextureType
  ceiling_texture : TextureType
  light_level : Nat
  special_type : Nat
  sector_tag : Nat
  subsectors : List Nat
  neighbours : List Nat
deriving Repr, DecidableEq

structure Sidedef where
  texture_offset : Vec2
  top_texture : TextureType
  bottom_texture : TextureType
  middle_texture : TextureType
  sector_index : Nat
deriving Repr, DecidableEq

/-- Built linedef. `line` is `(point, dir)` with exact integer
coordinates; the `normal`, `planes` and `bbox` fields of the source are
`f32`-derived (normalisation) and not modelled — no claim mentions them. -/
structure Linedef where
  line : Vec2 × Vec2
  flags : Nat
  solid_mask : SolidMask
  special_type : Nat
  sector_tag : Nat
  sidedefs : Option Sidedef × Option Sidedef
deriving Repr, DecidableEq

structure GLSeg where
  line : Vec2 × Vec2
  linedef_index : Option Nat
  linedef_side : Side
deriving Repr, DecidableEq

/-- Built subsector; the `planes` and `bbox` fields are `f32`-derived and
not modelled. -/
structure GLSSect where
  segs : List GLSeg
  sector_index : Nat
deriving Repr, DecidableEq

structure GLNode where
  partition_line : Vec2 × Vec2
  child_bboxes : BBox × BBox
  child_indices : NodeChild × NodeChild
deriving Repr, DecidableEq

structure Map where
  linedefs : List Linedef
  sectors : List Sector
  subsectors : List GLSSect
  nodes : List GLNode
  sky : Nat
deriving Repr, DecidableEq

/-- The import step of the flat/wall-texture asset types, whose decoded
contents never influence the claims; only handle identity matters. -/
def trivialImport : String → Except String Unit := fun _ => .ok ()

/-- The per-map `HashMap` memoisation (`flats.entry(name)` /
`textures.entry(name)`): a cached handle is reused, otherwise the asset
storage's `load` allocates one and the cache is filled. -/
def loadCached (cache : List (String × Nat)) (store : Store Unit Unit) (name : String) :
    Nat × List (String × Nat) × Store Unit Unit :=
  match alistFind name cache with
  | some h => (h, cache, store)
  | Option.none =>
    let (h, store') := Store.load trivialImport name store
    (h, alistInsert name h cache, store')

/-- Texture resolution for the slots with the `F_SKY1` special case
(sector floor/ceiling flats and the sidedef top texture): a name equal to
`"F_SKY1"` is always Sky; the source duplicates this match inline per
slot. -/
def resolveSky (cache : List (String × Nat)) (store : Store Unit Unit) :
    Option String → TextureType × List (String × Nat) × Store Unit Unit
  | Option.none => (.none, cache, store)
  | some name =>
    if name = "F_SKY1" then (.sky, cache, store)
    else
      let (h, c, s) := loadCached cache store name
      (.normal h, c, s)

/-- Texture resolution for the slots without the `F_SKY1` special case
(sidedef bottom/middle textures). -/
def resolvePlain (cache : List (String × Nat)) (store : Store Unit Unit) :
    Option String → TextureType × List (String × Nat) × Store Unit Unit
  | Option.none => (.none, cache, store)
  | some name =>
    let (h, c, s) := loadCached cache store name
    (.normal h, c, s)

/-- Step 2 of `build_map`: build the sectors, threading the `flats`
memoisation cache and the flat storage. Note `sector_tag` is filled from
`data.special_type`, exactly as the source does. -/
def buildSectors : List SectorData → List (String × Nat) → Store Unit Unit →
    List Sector × List (String × Nat) × Store Unit Unit
  | [], c, s => ([], c, s)
  | d :: rest, c, s =>
    let (ft, c1, s1) := resolveSky c s d.floor_flat_name
    let (ct, c2, s2) := resolveSky c1 s1 d.ceiling_flat_name
    let (others, c3, s3) := buildSectors rest c2 s2
    ({ interval := (d.floor_height, d.ceiling_height),
       floor_texture := ft,
       ceiling_texture := ct,
       light_level := d.light_level,
       special_type := d.special_type,
       sector_tag := d.special_type,
       subsectors := [],
       neighbours := [] } :: others, c3, s3)

/-- Step 3 of `build_map`: build the sidedefs, threading the `textures`
cache and the wall-texture storage; only the top slot gets the Sky
special case. (The source wraps each in `Some` for the later ownership
transfer; the wrapping happens at the use site here.) -/
def buildSidedefs : List SidedefData → List (String × Nat) → Store Unit Unit →
    List Sidedef × List (String × Nat) × Store Unit Unit
  | [], c, s => ([], c, s)
  | d :: rest, c, s =>
    let (tt, c1, s1) := resolveSky c s d.top_texture_name
    let (bt, c2, s2) := resolvePlain c1 s1 d.bottom_texture_name
    let (mt, c3, s3) := resolvePlain c2 s2 d.middle_texture_name
    let (others, c4, s4) := buildSidedefs rest c3 s3
    ({ texture_offset := d.texture_offset,
       top_texture := tt,
       bottom_texture := bt,
       middle_texture := mt,
       sector_index := d.sector_index } :: others, c4, s4)

/-- `data.sidedef_indices[k].map(|x| sidedefs[x].take().unwrap())`:
out-of-bounds indexing panics, and taking an already-taken slot panics
(`unwrap` on `None`). On success the slot is emptied. -/
def takeSlot (slots : List (Option Sidedef)) :
    Option Nat → BResult (Option Sidedef × List (Option Sidedef))
  | Option.none => .ok (Option.none, slots)
  | some x => do
    let slot ← vecGet slots x
    match slot with
    | some sd => .ok (some sd, slots.set x Option.none)
    | Option.none => .panic "called unwrap on a None value"

def solidMaskFor (flags : Nat) : SolidMask :=
  if flags &&& 1 ≠ 0 then .all
  else if flags &&& 2 ≠ 0 then .monster
  else .empty

/-- The "Set sector neighbours" part of step 4: when the two sides
reference different sectors, each sector is pushed onto the other's
neighbour list unless already present. -/
def addNeighbours (front back : Sidedef) (sectors : List Sector) : BResult (List Sector) :=
  if front.sector_index ≠ back.sector_index then do
    let fsec ← vecGet sectors front.sector_index
    let sectorsA :=
      if back.sector_index ∈ fsec.neighbours then sectors
      else sectors.set front.sector_index
        { fsec with neighbours := fsec.neighbours ++ [back.sector_index] }
    let bsec ← vecGet sectorsA back.sector_index
    pure (if front.sector_index ∈ bsec.neighbours then sectorsA
          else sectorsA.set back.sector_index
            { bsec with neighbours := bsec.neighbours ++ [front.sector_index] })
  else pure sectors

/-- The `if let [Some(front), Some(back)] = &mut sidedefs` block of
step 4 of `build_map`: when both sides are present, register sector
adjacency and apply the sky hack to the top textures when both ceilings
are Sky; otherwise the sidedefs and sectors pass through unchanged. -/
def neighbourSkyStep (sd0 sd1 : Option Sidedef) (sectors : List Sector) :
    BResult (Option Sidedef × Option Sidedef × List Sector) :=
  match sd0, sd1 with
  | some front, some back => do
    let sectorsN ← addNeighbours front back sectors
    let fsec2 ← vecGet sectorsN front.sector_index
    let bsec2 ← vecGet sectorsN back.sector_index
    if fsec2.ceiling_texture.is_sky && bsec2.ceiling_texture.is_sky then
      pure (some { front with top_texture := .sky },
            some { back with top_texture := .sky }, sectorsN)
    else
      pure (some front, some back, sectorsN)
  | _, _ => pure (sd0, sd1, sectors)

/-- Step 4 of `build_map` for one linedef: take ownership of the
referenced sidedefs, run the adjacency/sky-hack block, and assemble the
linedef. -/
def buildLinedef (vertexes : List Vec2) (d : LinedefData)
    (slots : List (Option Sidedef)) (sectors : List Sector) :
    BResult (Linedef × List (Option Sidedef) × List Sector) := do
  let (sd0, slots1) ← takeSlot slots d.sidedef_indices.1
  let (sd1, slots2) ← takeSlot slots1 d.sidedef_indices.2
  let (sd0', sd1', sectors1) ← neighbourSkyStep sd0 sd1 sectors
  let v1 ← vecGet vertexes d.vertex_indices.2
  let v0 ← vecGet vertexes d.vertex_indices.1
  pure ({ line := (v0, (v1.1 - v0.1, v1.2 - v0.2)),
          flags := d.flags,
          solid_mask := solidMaskFor d.flags,
          special_type := d.special_type,
          sector_tag := d.sector_tag,
          sidedefs := (sd0', sd1') }, slots2, sectors1)

def buildLinedefs (vertexes : List Vec2) : List LinedefData →
    List (Option Sidedef) → List Sector →
    BResult (List Linedef × List (Option Sidedef) × List Sector)
  | [], slots, sectors => .ok ([], slots, sectors)
  | d :: rest, slots, sectors => do
    let (ld, slots1, sectors1) ← buildLinedef vertexes d slots sectors
    let (lds, slots2, sectors2) ← buildLinedefs vertexes rest slots1 sectors1
    .ok (ld :: lds, slots2, sectors2)

/-- Child re-indexing of step 5: an internal node reference `x` becomes
`nodes_len - x - 1`; a leaf (subsector) reference is unchanged. -/
def rewriteChild (n : Nat) : NodeChild → NodeChild
  | .subsector i => .subsector i
  | .node i => .node (n - i - 1)

/-- Step 5 of `build_map`: reverse the node array (source order is
leaf-to-root) and rewrite the internal child references. -/
def buildNodes (l : List GLNodeData) : List GLNode :=
  let n := l.length
  l.reverse.map fun d =>
    { partition_line := (d.partition_point, d.partition_dir),
      child_bboxes := d.child_bboxes,
      child_indices := (rewriteChild n d.child_indices.1, rewriteChild n d.child_indices.2) }

def resolveVertex (gl_vert vertexes : List Vec2) : EitherVertex → BResult Vec2
  | .gl i => vecGet gl_vert i
  | .normal i => vecGet vertexes i

/-- Step 6 of `build_map`: build the GL segs (each endpoint from
whichever vertex array its tag selects). -/
def buildSegs (gl_vert vertexes : List Vec2) : List GLSegData → BResult (List GLSeg)
  | [] => .ok []
  | d :: rest => do
    let v0 ← resolveVertex gl_vert vertexes d.vertex_indices.1
    let v1 ← resolveVertex gl_vert vertexes d.vertex_indices.2
    let segs ← buildSegs gl_vert vertexes rest
    .ok ({ line := (v0, (v1.1 - v0.1, v1.2 - v0.2)),
           linedef_index := d.linedef_index,
           linedef_side := d.linedef_side } :: segs)

/-- `linedefs[index].sidedefs[side as usize]`: `Side::Right` is
discriminant 0, selecting the first sidedef slot (`Side` is declared in
`src/geometry.rs`, not among the provided sources; the discriminant
order is modelled from the decode convention "0 = right side" and the
slot convention "slot 0 = right/front side"). -/
def sideGet (p : Option Sidedef × Option Sidedef) : Side → Option Sidedef
  | .right => p.1
  | .left => p.2

/-- `segs.iter().find_map(...)`: the first seg in the range whose linedef
has a resolved sidedef on the seg's side gives the owning sector. -/
def findSectorIndex (linedefs : List Linedef) : List GLSeg → BResult (Option Nat)
  | [] => .ok Option.none
  | seg :: rest =>
    match seg.linedef_index with
    | Option.none => findSectorIndex linedefs rest
    | some idx => do
      let ld ← vecGet linedefs idx
      match sideGet ld.sidedefs seg.linedef_side with
      | some sd => .ok (some sd.sector_index)
      | Option.none => findSectorIndex linedefs rest

/-- Step 7 of `build_map`: build the subsectors from contiguous seg
ranges (`&segs[first..first+count]` — an out-of-range slice panics), with
"No sector could be found" as a build error, registering each subsector
in its owning sector. `i` is the running `enumerate` index. -/
def buildSubsectors (linedefs : List Linedef) (segs : List GLSeg) :
    List GLSSectData → Nat → List Sector → BResult (List GLSSect × List Sector)
  | [], _, sectors => .ok ([], sectors)
  | d :: rest, i, sectors => do
    let slice ←
      if d.first_seg_index + d.seg_count ≤ segs.length then
        pure ((segs.drop d.first_seg_index).take d.seg_count)
      else BResult.panic "slice range out of bounds"
    let osec ← findSectorIndex linedefs slice
    let sector_index ←
      match osec with
      | some k => pure k
      | Option.none => BResult.err "No sector could be found for subsector"
    let sec ← vecGet sectors sector_index
    let sectors1 := sectors.set sector_index { sec with subsectors := sec.subsectors ++ [i] }
    let (rest', sectors2) ← buildSubsectors linedefs segs rest (i + 1) sectors1
    .ok ({ segs := slice, sector_index := sector_index } :: rest', sectors2)

/-- `build_map`: the whole builder. The sky wall texture is loaded first;
steps 2–7 run in source order. The final states of the flat and
wall-texture storages (visible to the Rust caller through `&mut`) are
dropped here — no claim concerns them. -/
def buildMap (md : MapData) (sky_name : String)
    (flat_store wall_store : Store Unit Unit) : BResult Map :=
  let skyLoad := Store.load trivialImport sky_name wall_store
  let sec3 := buildSectors md.sectors [] flat_store
  let sid3 := buildSidedefs md.sidedefs [] skyLoad.2
  do
    let lres ← buildLinedefs md.vertexes md.linedefs (sid3.1.map some) sec3.1
    let segs ← buildSegs md.gl_vert md.vertexes md.gl_segs
    let sres ← buildSubsectors lres.1 segs md.gl_ssect 0 lres.2.2
    .ok { linedefs := lres.1, sectors := sres.2, subsectors := sres.1,
          nodes := buildNodes md.gl_nodes, sky := skyLoad.1 }

/-- Whether two sectors are joined (in the intermediate data) by a
linedef with sidedefs on both sides referencing the two sectors — the
adjacency the builder records. -/
def joinedData (md : MapData) (s t : Nat) : Bool :=
  md.linedefs.any fun d =>
    match d.sidedef_indices with
    | (some f, some b) =>
      match md.sidedefs[f]?, md.sidedefs[b]? with
      | some df, some db =>
        (df.sector_index == s && db.sector_index == t) ||
        (df.sector_index == t && db.sector_index == s)
      | _, _ => false
    | _ => false

/-- The sector fields other than `neighbours` — everything step 4 leaves
untouched. -/
def sectorKey (s : Sector) :
    (Int × Int) × TextureType × TextureType × Nat × Nat × Nat × List Nat :=
  (s.interval, s.floor_texture, s.ceiling_texture, s.light_level,
   s.special_type, s.sector_tag, s.subsectors)

/-- The sector fields other than `subsectors` — everything step 7 leaves
untouched. -/
def sectorKeySub (s : Sector) :
    (Int × Int) × TextureType × TextureType × Nat × Nat × Nat × List Nat :=
  (s.interval, s.floor_texture, s.ceiling_texture, s.light_level,
   s.special_type, s.sector_tag, s.neighbours)

/-- Whether one linedef record, whose built sidedefs are drawn from `S`,
joins sectors `s` and `t` via two present sides. -/
def joinedOne (S : List Sidedef) (d : LinedefData) (s t : Nat) : Bool :=
  match d.sidedef_indices with
  | (some f, some b) =>
    match S[f]?, S[b]? with
    | some df, some db =>
      (df.sector_index == s && db.sector_index == t) ||
      (df.sector_index == t && db.sector_index == s)
    | _, _ => false
  | _ => false

/-- Whether a pair of optional built sidedefs joins sectors `s` and
`t` directly (front/back in either order). -/
def sidePairJoin (sd0 sd1 : Option Sidedef) (s t : Nat) : Bool :=
  match sd0, sd1 with
  | some front, some back =>
    (front.sector_index == s && back.sector_index == t) ||
    (front.sector_index == t && back.sector_index == s)
  | _, _ => false

/-- Whether any linedef in `ds` joins sectors `s` and `t`. -/
def joinedAny (S : List Sidedef) (ds : List LinedefData) (s t : Nat) : Bool :=
  ds.any fun d => joinedOne S d s t

/-! ### Concrete inputs used by counterexamples and witnesses -/

/-- A sidedef record referencing sector 0, with no textures. -/
def sidedefZero : SidedefData :=
  { texture_offset := (0, 0), top_texture_name := Option.none,
    bottom_texture_name := Option.none, middle_texture_name := Option.none,
    sector_index := 0 }

/-- A plain sector record (no flats). -/
def sectorZero : SectorData :=
  { floor_height := 0, ceiling_height := 64, floor_flat_name := Option.none,
    ceiling_flat_name := Option.none, light_level := 255,
    special_type := 3, sector_tag := 9 }

/-- One linedef whose vertex indices point into an empty vertex array:
every checked cross-reference is fine, but linedef→vertex is out of
bounds. -/
def c1data : MapData :=
  { linedefs := [{ vertex_indices := (0, 0), flags := 0, special_type := 0,
                   sector_tag := 0, sidedef_indices := (Option.none, Option.none) }],
    sidedefs := [], vertexes := [], sectors := [], gl_vert := [],
    gl_segs := [], gl_ssect := [], gl_nodes := [] }

/-- A linedef whose two sides reference the same sidedef slot 0: all
validated indices are in bounds, but the builder's second
`sidedefs[0].take().unwrap()` hits `None`. -/
def c2data : MapData :=
  { linedefs := [{ vertex_indices := (0, 1), flags := 0, special_type := 0,
                   sector_tag := 0, sidedef_indices := (some 0, some 0) }],
    sidedefs := [sidedefZero], vertexes := [(0, 0), (1, 0)],
    sectors := [sectorZero], gl_vert := [], gl_segs := [], gl_ssect := [],
    gl_nodes := [] }

/-- A single BSP node whose children are internal references to node 0. -/
def c3data : MapData :=
  { linedefs := [], sidedefs := [], vertexes := [], sectors := [],
    gl_vert := [], gl_segs := [], gl_ssect := [],
    gl_nodes := [{ partition_point := (0, 0), partition_dir := (1, 0),
                   child_bboxes := (((0, 0), (0, 0)), ((0, 0), (0, 0))),
                   child_indices := (NodeChild.node 0, NodeChild.node 0) }] }

/-- A two-sided linedef between two sectors that both have the `F_SKY1`
ceiling flat. -/
def c4data : MapData :=
  { linedefs := [{ vertex_indices := (0, 1), flags := 4, special_type := 0,
                   sector_tag := 0, sidedef_indices := (some 0, some 1) }],
    sidedefs := [sidedefZero, { sidedefZero with sector_index := 1 }],
    vertexes := [(0, 0), (1, 0)],
    sectors := [{ sectorZero with ceiling_flat_name := some "F_SKY1" },
                { sectorZero with ceiling_flat_name := some "F_SKY1" }],
    gl_vert := [], gl_segs := [], gl_ssect := [], gl_nodes := [] }

/-- A two-sided linedef joining sectors 0 and 1 (no sky). -/
def c5data : MapData :=
  { linedefs := [{ vertex_indices := (0, 1), flags := 4, special_type := 0,
                   sector_tag := 0, sidedef_indices := (some 0, some 1) }],
    sidedefs := [sidedefZero, { sidedefZero with sector_index := 1 }],
    vertexes := [(0, 0), (1, 0)],
    sectors := [sectorZero, { sectorZero with special_type := 5 }],
    gl_vert := [], gl_segs := [], gl_ssect := [], gl_nodes := [] }

/-- The Map built from `c3data`: the single node keeps its leaf-free
children rewritten to the (unchanged) index 0, and the sky texture gets
the first allocated handle. -/
def c3map : Map :=
  { linedefs := [], sectors := [], subsectors := [],
    nodes := [{ partition_line := ((0, 0), (1, 0)),
                child_bboxes := (((0, 0), (0, 0)), ((0, 0), (0, 0))),
                child_indices := (NodeChild.node 0, NodeChild.node 0) }],
    sky := 1 }

/-- The Map built from `c4data`: both top textures are forced to Sky. -/
def c4map : Map :=
  { linedefs := [{ line := ((0, 0), (1, 0)),
                   flags := 4, solid_mask := SolidMask.empty,
                   special_type := 0, sector_tag := 0,
                   sidedefs :=
                     (some { texture_offset := (0, 0), top_texture := TextureType.sky,
                             bottom_texture := TextureType.none,
                             middle_texture := TextureType.none, sector_index := 0 },
                      some { texture_offset := (0, 0), top_texture := TextureType.sky,
                             bottom_texture := TextureType.none,
                             middle_texture := TextureType.none, sector_index := 1 }) }],
    sectors := [{ interval := (0, 64), floor_texture := TextureType.none,
                  ceiling_texture := TextureType.sky, light_level := 255,
                  special_type := 3, sector_tag := 3, subsectors := [], neighbours := [1] },
                { interval := (0, 64), floor_texture := TextureType.none,
                  ceiling_texture := TextureType.sky, light_level := 255,
                  special_type := 3, sector_tag := 3, subsectors := [], neighbours := [0] }],
    subsectors := [], nodes := [], sky := 1 }

/-- The Map built from `c5data`: sectors 0 and 1 are mutual neighbours,
each exactly once. -/
def c5map : Map :=
  { linedefs := [{ line := ((0, 0), (1, 0)),
                   flags := 4, solid_mask := SolidMask.empty,
                   special_type := 0, sector_tag := 0,
                   sidedefs :=
                     (some { texture_offset := (0, 0), top_texture := TextureType.none,
                             bottom_texture := TextureType.none,
                             middle_texture := TextureType.none, sector_index := 0 },
                      some { texture_offset := (0, 0), top_texture := TextureType.none,
                             bottom_texture := TextureType.none,
                             middle_texture := TextureType.none, sector_index := 1 }) }],
    sectors := [{ interval := (0, 64), floor_texture := TextureType.none,
                  ceiling_texture := TextureType.none, light_level := 255,
                  special_type := 3, sector_tag := 3, subsectors := [], neighbours := [1] },
                { interval := (0, 64), floor_texture := TextureType.none,
                  ceiling_texture := TextureType.none, light_level := 255,
                  special_type := 5, sector_tag := 5, subsectors := [], neighbours := [0] }],
    subsectors := [], nodes := [], sky := 1 }

/-- A map with a single sector and nothing else. -/
def c7data : MapData :=
  { linedefs := [], sidedefs := [], vertexes := [], sectors := [sectorZero],
    gl_vert := [], gl_segs := [], gl_ssect := [], gl_nodes := [] }

/-- The Map built from `c7data`: note both `special_type` and
`sector_tag` hold the record's special type 3, not the record's tag 9. -/
def c7map : Map :=
  { linedefs := [],
    sectors := [{ interval := (0, 64), floor_texture := TextureType.none,
                  ceiling_texture := TextureType.none, light_level := 255,
                  special_type := 3, sector_tag := 3,
                  subsectors := [], neighbours := [] }],
    subsectors := [], nodes := [], sky := 1 }

/-! ## Helper lemmas -/

@[simp]
theorem BResult.ok_bind {α β : Type} (a : α) (f : α → BResult β) :
    (BResult.ok a >>= f) = f a := rfl

@[simp]
theorem BResult.err_bind {α β : Type} (m : String) (f : α → BResult β) :
    (BResult.err m >>= f) = BResult.err m := rfl

@[simp]
theorem BResult.panic_bind {α β : Type} (m : String) (f : α → BResult β) :
    (BResult.panic m >>= f) = BResult.panic m := rfl

@[simp]
theorem BResult.pure_eq_ok {α : Type} (a : α) : (pure a : BResult α) = BResult.ok a := rfl

theorem BResult.isPanic_bind {α β : Type} {x : BResult α} (f : α → BResult β)
    (h : x.isPanic = true) : (x >>= f).isPanic = true := by
  cases x <;> simp_all [BResult.isPanic]

theorem vecGet_ok {α : Type} {l : List α} {i : Nat} {a : α} :
    vecGet l i = .ok a ↔ l[i]? = some a := by
  unfold vecGet
  cases h : l[i]? <;> simp

theorem vecGet_ne_err {α : Type} (l : List α) (i : Nat) (m : String) :
    vecGet l i ≠ .err m := by
  unfold vecGet
  cases h : l[i]? <;> simp

theorem alistFind_insert_self {κ β : Type} [DecidableEq κ] (k : κ) (v : β)
    (m : List (κ × β)) : alistFind k (alistInsert k v m) = some v := by
  induction m with
  | nil => simp [alistFind, alistInsert]
  | cons p rest ih =>
    by_cases h : k = p.1
    · simp [alistInsert, alistFind, h]
    · simp [alistInsert, alistFind, h, ih]

theorem alistFind_insert_ne {κ β : Type} [DecidableEq κ] {k k' : κ} (v : β)
    (m : List (κ × β)) (h : k' ≠ k) :
    alistFind k' (alistInsert k v m) = alistFind k' m := by
  induction m with
  | nil => simp [alistFind, alistInsert, h]
  | cons p rest ih =>
    by_cases hk : k = p.1
    · subst hk
      simp [alistInsert, alistFind, h]
    · by_cases hk' : k' = p.1 <;> simp [alistInsert, alistFind, hk, hk', ih]

/-! ## Claim C8 -/

/-- Claim C8: calling `load` twice for the same name before the build
phase runs returns the identical handle from both calls and leaves
exactly one pending entry for that name in the unbuilt queue, not two. -/
theorem claim_c8 {δ ι : Type} (imp : String → Except String ι) (s : Store δ ι)
    (x : String) (h1 : alistFind x s.names = Option.none)
    (h2 : countUnbuilt x s.unbuilt = 0) :
    (Store.load imp x (Store.load imp x s).2).1 = (Store.load (δ := δ) imp x s).1 ∧
    countUnbuilt x (Store.load imp x (Store.load imp x s).2).2.unbuilt = 1 := by
  unfold Store.load
  rw [h1]
  simp only [alistFind_insert_self]
  constructor
  · trivial
  · simpa [countUnbuilt, List.countP_append, List.countP_cons] using h2

/-- Witness for C8 at the empty store. -/
theorem claim_c8_witness :
    alistFind "x" (Store.empty : Store Unit Unit).names = Option.none ∧
    countUnbuilt "x" (Store.empty : Store Unit Unit).unbuilt = 0 ∧
    ((Store.load trivialImport "x" (Store.load trivialImport "x" (Store.empty : Store Unit Unit)).2).1 =
      (Store.load (δ := Unit) trivialImport "x" Store.empty).1 ∧
     countUnbuilt "x" (Store.load trivialImport "x"
       (Store.load trivialImport "x" (Store.empty : Store Unit Unit)).2).2.unbuilt = 1) := by
  refine ⟨rfl, rfl, ?_⟩
  exact claim_c8 trivialImport Store.empty "x" rfl rfl

/-! ## Claim C9 -/

/-- Claim C9: `insert_with_name` with the same name twice returns the
same handle both times (no second handle allocated), and a subsequent
lookup by that name returns the second value. -/
theorem claim_c9 {δ ι : Type} (s : Store δ ι) (n : String) (v1 v2 : δ)
    (h : alistFind n s.names = Option.none) :
    (Store.insert_with_name n v2 (Store.insert_with_name n v1 s).2).1 =
      (Store.insert_with_name (ι := ι) n v1 s).1 ∧
    Store.get_by_name n (Store.insert_with_name n v2 (Store.insert_with_name n v1 s).2).2 =
      some v2 := by
  unfold Store.insert_with_name Store.get_by_name
  rw [h]
  simp only [alistFind_insert_self]
  exact ⟨trivial, by simp [alistFind_insert_self]⟩

/-- Witness for C9 at the empty store, with two distinguishable values. -/
theorem claim_c9_witness :
    alistFind "foo" (Store.empty : Store Bool Unit).names = Option.none ∧
    ((Store.insert_with_name "foo" false
        (Store.insert_with_name "foo" true (Store.empty : Store Bool Unit)).2).1 =
      (Store.insert_with_name (ι := Unit) "foo" true (Store.empty : Store Bool Unit)).1 ∧
     Store.get_by_name "foo" (Store.insert_with_name "foo" false
        (Store.insert_with_name "foo" true (Store.empty : Store Bool Unit)).2).2 =
      some false) :=
  ⟨rfl, claim_c9 Store.empty "foo" true false rfl⟩

/-! ## Claim C1 -/

theorem exceptSeq_ok_iff (a : Except String Unit) (f : Unit → Except String Unit) :
    (a >>= f) = .ok () ↔ (a = .ok () ∧ f () = .ok ()) := by
  cases a with
  | ok u => cases u; simp [Bind.bind, Except.bind]
  | error e => simp [Bind.bind, Except.bind]

theorem checkSidedefs_ok_iff (n : Nat) (l : List SidedefData) :
    checkSidedefs n l = .ok () ↔ ∀ sd ∈ l, sd.sector_index < n := by
  induction l with
  | nil => simp [checkSidedefs]
  | cons sd rest ih => by_cases h : sd.sector_index < n <;> simp [checkSidedefs, h, ih]

theorem checkLinedefs_ok_iff (n : Nat) (l : List LinedefData) :
    checkLinedefs n l = .ok () ↔ ∀ ld ∈ l, linedefRefsOk n ld = true := by
  induction l with
  | nil => simp [checkLinedefs]
  | cons ld rest ih => by_cases h : linedefRefsOk n ld = true <;> simp [checkLinedefs, h, ih]

theorem checkSegs_ok_iff (nl ng nv ns : Nat) (l : List GLSegData) :
    checkSegs nl ng nv ns l = .ok () ↔ ∀ seg ∈ l, segRefsOk nl ng nv ns seg = true := by
  induction l with
  | nil => simp [checkSegs]
  | cons seg rest ih => by_cases h : segRefsOk nl ng nv ns seg = true <;> simp [checkSegs, h, ih]

theorem checkSsects_ok_iff (n : Nat) (l : List GLSSectData) :
    checkSsects n l = .ok () ↔ ∀ ssect ∈ l, ssectRefsOk n ssect = true := by
  induction l with
  | nil => simp [checkSsects]
  | cons ssect rest ih => by_cases h : ssectRefsOk n ssect = true <;> simp [checkSsects, h, ih]

theorem checkNodes_ok_iff (ns nn : Nat) (l : List GLNodeData) :
    checkNodes ns nn l = .ok () ↔ ∀ node ∈ l, nodeRefsOk ns nn node = true := by
  induction l with
  | nil => simp [checkNodes]
  | cons node rest ih => by_cases h : nodeRefsOk ns nn node = true <;> simp [checkNodes, h, ih]

/-- Counterexample to C1 as stated: `c1data` contains a linedef whose
vertex indices are out of bounds (the vertex array is empty), yet the
cross-reference validation accepts it — linedef→vertex is not among the
checked index families. -/
theorem claim_c1_counterexample :
    validateMapData c1data = Except.ok () ∧ linedefVertexesOk c1data = false :=
  ⟨rfl, rfl⟩

/-- Claim C1 (amended: the validator checks sidedef→sector,
linedef→sidedef, seg→linedef, seg→vertex, seg→partner-seg, subsector
seg-range and node→child — but not linedef→vertex): it accepts exactly
when every one of those indices is within its target array's bounds, and
any single out-of-range index among them rejects the import. -/
theorem claim_c1 (md : MapData) :
    validateMapData md = Except.ok () ↔ checkedRefsOk md := by
  unfold validateMapData checkedRefsOk
  simp only [exceptSeq_ok_iff]
  rw [checkSidedefs_ok_iff, checkLinedefs_ok_iff, checkSegs_ok_iff, checkSsects_ok_iff,
    checkNodes_ok_iff]

/-! ## Claim C6: generic facts about the decode loop -/

theorem decodeLoop_ok_length {α : Type} {k : Nat}
    {readRec : List Nat → Except String (α × List Nat)} (hk0 : 0 < k)
    (hk : ∀ b a r, readRec b = .ok (a, r) → k ≤ b.length ∧ r = b.drop k) :
    ∀ fuel bytes l, decodeLoop readRec fuel bytes = .ok l →
      l.length * k = bytes.length := by
  intro fuel
  induction fuel with
  | zero =>
    intro bytes l h
    cases bytes with
    | nil =>
      simp only [decodeLoop, Except.ok.injEq] at h
      subst h
      simp
    | cons b rest => simp [decodeLoop] at h
  | succ fuel ih =>
    intro bytes l h
    cases bytes with
    | nil =>
      simp only [decodeLoop, Except.ok.injEq] at h
      subst h
      simp
    | cons b rest =>
      rw [decodeLoop] at h
      cases hr : readRec (b :: rest) with
      | error e => simp only [hr] at h; exact absurd h (by simp)
      | ok p =>
        obtain ⟨a, rest'⟩ := p
        simp only [hr] at h
        cases hd : decodeLoop readRec fuel rest' with
        | error e => simp only [hd] at h; exact absurd h (by simp)
        | ok as =>
          simp only [hd, Except.ok.injEq] at h
          subst h
          obtain ⟨hlen, hdrop⟩ := hk _ _ _ hr
          have hih := ih rest' as hd
          have hrl : rest'.length = (b :: rest).length - k := by
            rw [hdrop]; simp
          have hmul : (as.length + 1) * k = as.length * k + k := by ring
          simp only [List.length_cons] at hlen hrl ⊢
          rw [hmul, hih]
          omega

theorem decodeLoop_isOk_iff {α : Type} {k : Nat}
    {readRec : List Nat → Except String (α × List Nat)} (hk0 : 0 < k)
    (hk : ∀ b a r, readRec b = .ok (a, r) → k ≤ b.length ∧ r = b.drop k) :
    ∀ fuel bytes, bytes.length ≤ fuel →
      ((decodeLoop readRec fuel bytes).isOk = true ↔
        (k ∣ bytes.length ∧
          ∀ i < bytes.length / k, (readRec (bytes.drop (k * i))).isOk = true)) := by
  intro fuel
  induction fuel with
  | zero =>
    intro bytes hlen
    have : bytes = [] := List.eq_nil_of_length_eq_zero (Nat.le_zero.mp hlen)
    subst this
    simp [decodeLoop, Except.isOk, Except.toBool]
  | succ fuel ih =>
    intro bytes hlen
    cases bytes with
    | nil => simp [decodeLoop, Except.isOk, Except.toBool]
    | cons b rest =>
      rw [decodeLoop]
      cases hr : readRec (b :: rest) with
      | error e =>
        simp only [hr]
        simp only [Except.isOk, Except.toBool]
        constructor
        · intro h; exact absurd h (by simp)
        · rintro ⟨hdvd, hall⟩
          have hpos : 0 < (b :: rest).length / k :=
            Nat.div_pos (Nat.le_of_dvd (by simp) hdvd) hk0
          have := hall 0 hpos
          rw [Nat.mul_zero, List.drop_zero, hr] at this
          exact absurd this (by simp [Except.isOk, Except.toBool])
      | ok p =>
        obtain ⟨a, rest'⟩ := p
        simp only [hr]
        obtain ⟨hlen', hdrop⟩ := hk _ _ _ hr
        have hrl : rest'.length = (b :: rest).length - k := by rw [hdrop]; simp
        have hsum : (b :: rest).length = rest'.length + k := by omega
        have hih := ih rest' (by omega)
        have hmatch : (match decodeLoop readRec fuel rest' with
            | .error e => (.error e : Except String (List α))
            | .ok as => .ok (a :: as)).isOk = (decodeLoop readRec fuel rest').isOk := by
          cases decodeLoop readRec fuel rest' <;> simp [Except.isOk, Except.toBool]
        rw [hmatch, hih]
        have hdvd_iff : k ∣ (b :: rest).length ↔ k ∣ rest'.length := by
          rw [hsum]; exact Nat.dvd_add_self_right
        have hdiv : (b :: rest).length / k = rest'.length / k + 1 := by
          rw [hsum]; exact Nat.add_div_right _ hk0
        have hshift : ∀ i : Nat, (b :: rest).drop (k * (i + 1)) = rest'.drop (k * i) := by
          intro i
          rw [hdrop, List.drop_drop]
          congr 1
          ring
        constructor
        · rintro ⟨hdvd, hall⟩
          refine ⟨hdvd_iff.mpr hdvd, ?_⟩
          intro i hi
          match i with
          | 0 => rw [Nat.mul_zero, List.drop_zero, hr]; rfl
          | j + 1 =>
            rw [hshift j]
            exact hall j (by omega)
        · rintro ⟨hdvd, hall⟩
          refine ⟨hdvd_iff.mp hdvd, ?_⟩
          intro i hi
          rw [← hshift i]
          exact hall (i + 1) (by omega)

theorem decodeLoop_mem {α : Type} {readRec : List Nat → Except String (α × List Nat)} :
    ∀ fuel bytes l, decodeLoop readRec fuel bytes = .ok l →
      ∀ a ∈ l, ∃ b r, readRec b = .ok (a, r) := by
  intro fuel
  induction fuel with
  | zero =>
    intro bytes l h a ha
    cases bytes with
    | nil =>
      simp only [decodeLoop, Except.ok.injEq] at h
      subst h
      simp at ha
    | cons b rest => simp [decodeLoop] at h
  | succ fuel ih =>
    intro bytes l h a ha
    cases bytes with
    | nil =>
      simp only [decodeLoop, Except.ok.injEq] at h
      subst h
      simp at ha
    | cons b rest =>
      rw [decodeLoop] at h
      cases hr : readRec (b :: rest) with
      | error e => simp only [hr] at h; exact absurd h (by simp)
      | ok p =>
        obtain ⟨a', rest'⟩ := p
        simp only [hr] at h
        cases hd : decodeLoop readRec fuel rest' with
        | error e => simp only [hd] at h; exact absurd h (by simp)
        | ok as =>
          simp only [hd, Except.ok.injEq] at h
          subst h
          rcases List.mem_cons.mp ha with rfl | hmem
          · exact ⟨b :: rest, rest', hr⟩
          · exact ih rest' as hd a hmem

/-- For a record reader that consumes exactly `k` bytes and succeeds on
any buffer with at least `k` bytes remaining, the decode loop succeeds
iff the buffer length is an exact multiple of `k`. -/
theorem decode_intOk {α : Type} {k : Nat}
    {readRec : List Nat → Except String (α × List Nat)} (hk0 : 0 < k)
    (hcons : ∀ b a r, readRec b = .ok (a, r) → k ≤ b.length ∧ r = b.drop k)
    (hisok : ∀ b, k ≤ b.length → (readRec b).isOk = true) (bytes : List Nat) :
    (decodeLoop readRec bytes.length bytes).isOk = true ↔ k ∣ bytes.length := by
  rw [decodeLoop_isOk_iff hk0 hcons bytes.length bytes le_rfl]
  constructor
  · rintro ⟨hd, _⟩; exact hd
  · intro hd
    refine ⟨hd, fun i hi => hisok _ ?_⟩
    rw [List.length_drop]
    obtain ⟨m, hm⟩ := hd
    rw [hm] at hi ⊢
    rw [Nat.mul_div_cancel_left m hk0] at hi
    have : k * i + k ≤ k * m := by
      calc k * i + k = k * (i + 1) := by ring
      _ ≤ k * m := Nat.mul_le_mul_left k hi
    omega

/-- On success the decode loop produces exactly `length / k` records. -/
theorem decode_count {α : Type} {k : Nat}
    {readRec : List Nat → Except String (α × List Nat)} (hk0 : 0 < k)
    (hcons : ∀ b a r, readRec b = .ok (a, r) → k ≤ b.length ∧ r = b.drop k)
    (bytes : List Nat) (l : List α)
    (h : decodeLoop readRec bytes.length bytes = .ok l) :
    l.length = bytes.length / k := by
  have := decodeLoop_ok_length hk0 hcons bytes.length bytes l h
  rw [← this, Nat.mul_div_cancel _ hk0]

theorem readVertex_consumes (b : List Nat) (a : Vec2) (r : List Nat)
    (h : readVertex b = .ok (a, r)) : 4 ≤ b.length ∧ r = b.drop 4 := by
  unfold readVertex at h
  split at h
  · rename_i hlen
    simp only [Except.ok.injEq, Prod.mk.injEq] at h
    exact ⟨hlen, h.2.symm⟩
  · exact absurd h (by simp)

theorem readVertex_isOk (b : List Nat) (h : 4 ≤ b.length) :
    (readVertex b).isOk = true := by
  simp [readVertex, h, Except.isOk, Except.toBool]

theorem readLinedef_consumes (b : List Nat) (a : LinedefData) (r : List Nat)
    (h : readLinedef b = .ok (a, r)) : 14 ≤ b.length ∧ r = b.drop 14 := by
  unfold readLinedef at h
  split at h
  · rename_i hlen
    simp only [Except.ok.injEq, Prod.mk.injEq] at h
    exact ⟨hlen, h.2.symm⟩
  · exact absurd h (by simp)

theorem readLinedef_isOk (b : List Nat) (h : 14 ≤ b.length) :
    (readLinedef b).isOk = true := by
  simp [readLinedef, h, Except.isOk, Except.toBool]

theorem readThing_consumes (b : List Nat) (a : ThingData) (r : List Nat)
    (h : readThing b = .ok (a, r)) : 10 ≤ b.length ∧ r = b.drop 10 := by
  unfold readThing at h
  split at h
  · rename_i hlen
    simp only [Except.ok.injEq, Prod.mk.injEq] at h
    exact ⟨hlen, h.2.symm⟩
  · exact absurd h (by simp)

theorem readThing_isOk (b : List Nat) (h : 10 ≤ b.length) :
    (readThing b).isOk = true := by
  simp [readThing, h, Except.isOk, Except.toBool]

theorem readGLSeg_consumes (b : List Nat) (a : GLSegData) (r : List Nat)
    (h : readGLSeg b = .ok (a, r)) : 10 ≤ b.length ∧ r = b.drop 10 := by
  unfold readGLSeg at h
  split at h
  · rename_i hlen
    simp only [Except.ok.injEq, Prod.mk.injEq] at h
    exact ⟨hlen, h.2.symm⟩
  · exact absurd h (by simp)

theorem readGLSeg_isOk (b : List Nat) (h : 10 ≤ b.length) :
    (readGLSeg b).isOk = true := by
  simp [readGLSeg, h, Except.isOk, Except.toBool]

theorem readGLSSect_consumes (b : List Nat) (a : GLSSectData) (r : List Nat)
    (h : readGLSSect b = .ok (a, r)) : 4 ≤ b.length ∧ r = b.drop 4 := by
  unfold readGLSSect at h
  split at h
  · rename_i hlen
    simp only [Except.ok.injEq, Prod.mk.injEq] at h
    exact ⟨hlen, h.2.symm⟩
  · exact absurd h (by simp)

theorem readGLSSect_isOk (b : List Nat) (h : 4 ≤ b.length) :
    (readGLSSect b).isOk = true := by
  simp [readGLSSect, h, Except.isOk, Except.toBool]

theorem readGLNode_consumes (b : List Nat) (a : GLNodeData) (r : List Nat)
    (h : readGLNode b = .ok (a, r)) : 28 ≤ b.length ∧ r = b.drop 28 := by
  unfold readGLNode at h
  split at h
  · rename_i hlen
    simp only [Except.ok.injEq, Prod.mk.injEq] at h
    exact ⟨hlen, h.2.symm⟩
  · exact absurd h (by simp)

theorem readGLNode_isOk (b : List Nat) (h : 28 ≤ b.length) :
    (readGLNode b).isOk = true := by
  simp [readGLNode, h, Except.isOk, Except.toBool]

theorem readSidedef_consumes (b : List Nat) (a : SidedefData) (r : List Nat)
    (h : readSidedef b = .ok (a, r)) : 30 ≤ b.length ∧ r = b.drop 30 := by
  unfold readSidedef at h
  split at h
  · rename_i hlen
    split at h
    · simp only [Except.ok.injEq, Prod.mk.injEq] at h
      exact ⟨hlen, h.2.symm⟩
    · exact absurd h (by simp)
  · exact absurd h (by simp)

theorem readSector_consumes (b : List Nat) (a : SectorData) (r : List Nat)
    (h : readSector b = .ok (a, r)) : 26 ≤ b.length ∧ r = b.drop 26 := by
  unfold readSector at h
  split at h
  · rename_i hlen
    split at h
    · simp only [Except.ok.injEq, Prod.mk.injEq] at h
      exact ⟨hlen, h.2.symm⟩
    · exact absurd h (by simp)
  · exact absurd h (by simp)

/-- Counterexample to C6 as stated: a 3-byte vertex buffer (not an exact
multiple of the 4-byte record size) makes the vertexes decoder fail,
instead of succeeding with `3 / 4 = 0` records. -/
theorem claim_c6_counterexample :
    (decodeVertexes [0, 0, 0]).isOk = false ∧ [0, 0, 0].length / 4 = 0 :=
  ⟨rfl, rfl⟩

/-- Claim C6 (amended: a decoder succeeds only when the buffer length is
an exact multiple of its record size — a trailing partial record is an
error, not ignored; on success it produces exactly length/size records;
the integer-field decoders succeed on every exact-multiple buffer, while
the sidedefs and sectors decoders additionally require each record, read
at its offset, to decode — i.e. its name fields must be valid text). -/
theorem claim_c6 :
    (∀ bytes, (decodeThings bytes).isOk = true ↔ 10 ∣ bytes.length) ∧
    (∀ bytes, (decodeLinedefs bytes).isOk = true ↔ 14 ∣ bytes.length) ∧
    (∀ bytes, (decodeVertexes bytes).isOk = true ↔ 4 ∣ bytes.length) ∧
    (∀ bytes, (decodeGLSegs bytes).isOk = true ↔ 10 ∣ bytes.length) ∧
    (∀ bytes, (decodeGLSSects bytes).isOk = true ↔ 4 ∣ bytes.length) ∧
    (∀ bytes, (decodeGLNodes bytes).isOk = true ↔ 28 ∣ bytes.length) ∧
    (∀ bytes, (decodeSidedefs bytes).isOk = true ↔
      (30 ∣ bytes.length ∧
        ∀ i < bytes.length / 30, (readSidedef (bytes.drop (30 * i))).isOk = true)) ∧
    (∀ bytes, (decodeSectors bytes).isOk = true ↔
      (26 ∣ bytes.length ∧
        ∀ i < bytes.length / 26, (readSector (bytes.drop (26 * i))).isOk = true)) ∧
    (∀ bytes l, decodeThings bytes = .ok l → l.length = bytes.length / 10) ∧
    (∀ bytes l, decodeLinedefs bytes = .ok l → l.length = bytes.length / 14) ∧
    (∀ bytes l, decodeVertexes bytes = .ok l → l.length = bytes.length / 4) ∧
    (∀ bytes l, decodeGLSegs bytes = .ok l → l.length = bytes.length / 10) ∧
    (∀ bytes l, decodeGLSSects bytes = .ok l → l.length = bytes.length / 4) ∧
    (∀ bytes l, decodeGLNodes bytes = .ok l → l.length = bytes.length / 28) ∧
    (∀ bytes l, decodeSidedefs bytes = .ok l → l.length = bytes.length / 30) ∧
    (∀ bytes l, decodeSectors bytes = .ok l → l.length = bytes.length / 26) := by
  refine ⟨?_, ?_, ?_, ?_, ?_, ?_, ?_, ?_, ?_, ?_, ?_, ?_, ?_, ?_, ?_, ?_⟩
  · exact fun bytes => decode_intOk (by norm_num) readThing_consumes readThing_isOk bytes
  · exact fun bytes => decode_intOk (by norm_num) readLinedef_consumes readLinedef_isOk bytes
  · exact fun bytes => decode_intOk (by norm_num) readVertex_consumes readVertex_isOk bytes
  · exact fun bytes => decode_intOk (by norm_num) readGLSeg_consumes readGLSeg_isOk bytes
  · exact fun bytes => decode_intOk (by norm_num) readGLSSect_consumes readGLSSect_isOk bytes
  · exact fun bytes => decode_intOk (by norm_num) readGLNode_consumes readGLNode_isOk bytes
  · exact fun bytes =>
      decodeLoop_isOk_iff (by norm_num) readSidedef_consumes bytes.length bytes le_rfl
  · exact fun bytes =>
      decodeLoop_isOk_iff (by norm_num) readSector_consumes bytes.length bytes le_rfl
  · exact fun bytes l => decode_count (by norm_num) readThing_consumes bytes l
  · exact fun bytes l => decode_count (by norm_num) readLinedef_consumes bytes l
  · exact fun bytes l => decode_count (by norm_num) readVertex_consumes bytes l
  · exact fun bytes l => decode_count (by norm_num) readGLSeg_consumes bytes l
  · exact fun bytes l => decode_count (by norm_num) readGLSSect_consumes bytes l
  · exact fun bytes l => decode_count (by norm_num) readGLNode_consumes bytes l
  · exact fun bytes l => decode_count (by norm_num) readSidedef_consumes bytes l
  · exact fun bytes l => decode_count (by norm_num) readSector_consumes bytes l

/-- Witness for C6: an 8-byte vertex buffer decodes to exactly
`8 / 4 = 2` records, and a 26-byte sector buffer (with `-`-marked name
fields) decodes to one record. -/
theorem claim_c6_witness :
    decodeVertexes [1, 0, 2, 0, 3, 0, 4, 0] = Except.ok [((1 : Int), (2 : Int)), (3, 4)] ∧
    (∀ l, decodeVertexes [1, 0, 2, 0, 3, 0, 4, 0] = .ok l →
      l.length = [1, 0, 2, 0, 3, 0, 4, 0].length / 4) ∧
    [((1 : Int), (2 : Int)), ((3 : Int), (4 : Int))].length = 2 ∧
    (decodeSectors
      ([0, 0, 64, 0] ++ [0x2D, 0, 0, 0, 0, 0, 0, 0] ++ [0x2D, 0, 0, 0, 0, 0, 0, 0] ++
        [128, 0, 5, 0, 9, 0])).isOk = true :=
  ⟨rfl, fun l => claim_c6.2.2.2.2.2.2.2.2.2.2.1 [1, 0, 2, 0, 3, 0, 4, 0] l, rfl, rfl⟩

/-! ## Claim C10 -/

/-- Claim C10: a linedef or thing record whose 16-bit flags word has
undefined bits set still decodes (success depends only on having a full
record), and every decoded flags value lies within the defined flag mask
(`0xFF` for linedefs, `0xF` for things) — the undefined bits are
discarded by `from_bits_truncate`. -/
theorem claim_c10 :
    (∀ bytes, 14 ≤ bytes.length → (readLinedef bytes).isOk = true) ∧
    (∀ bytes, 10 ≤ bytes.length → (readThing bytes).isOk = true) ∧
    (∀ bytes l, decodeLinedefs bytes = .ok l →
      ∀ ld ∈ l, ld.flags &&& 0xFF = ld.flags) ∧
    (∀ bytes l, decodeThings bytes = .ok l →
      ∀ t ∈ l, t.flags &&& 0xF = t.flags) := by
  refine ⟨readLinedef_isOk, readThing_isOk, ?_, ?_⟩
  · intro bytes l h ld hld
    obtain ⟨b, r, hb⟩ := decodeLoop_mem bytes.length bytes l h ld hld
    unfold readLinedef at hb
    split at hb
    · simp only [Except.ok.injEq, Prod.mk.injEq] at hb
      rw [← hb.1]
      simp only [Nat.and_assoc, Nat.and_self]
    · exact absurd hb (by simp)
  · intro bytes l h t ht
    obtain ⟨b, r, hb⟩ := decodeLoop_mem bytes.length bytes l h t ht
    unfold readThing at hb
    split at hb
    · simp only [Except.ok.injEq, Prod.mk.injEq] at hb
      rw [← hb.1]
      simp only [Nat.and_assoc, Nat.and_self]
    · exact absurd hb (by simp)

/-- Witness for C10: a linedef record with all 16 flag bits set decodes
with flags truncated to `0xFF`, and a thing record with all bits set
decodes with flags truncated to `0xF`. -/
theorem claim_c10_witness :
    (14 : Nat) ≤ ([1, 0, 2, 0, 0xFF, 0xFF, 0, 0, 0, 0, 0xFF, 0xFF, 0, 0] : List Nat).length ∧
    (readLinedef [1, 0, 2, 0, 0xFF, 0xFF, 0, 0, 0, 0, 0xFF, 0xFF, 0, 0]).isOk = true ∧
    decodeLinedefs [1, 0, 2, 0, 0xFF, 0xFF, 0, 0, 0, 0, 0xFF, 0xFF, 0, 0] =
      .ok [{ vertex_indices := (1, 2), flags := 0xFF, special_type := 0, sector_tag := 0,
             sidedef_indices := (Option.none, some 0) }] ∧
    (0xFF : Nat) &&& 0xFF = 0xFF := by
  refine ⟨by norm_num, claim_c10.1 _ (by norm_num), by rfl, by rfl⟩

/-! ## Builder lemmas -/

theorem takeSlot_ok {slots : List (Option Sidedef)} {oi : Option Nat}
    {sd : Option Sidedef} {slots' : List (Option Sidedef)}
    (h : takeSlot slots oi = .ok (sd, slots')) :
    (oi = Option.none ∧ sd = Option.none ∧ slots' = slots) ∨
    (∃ x sdv, oi = some x ∧ slots[x]? = some (some sdv) ∧ sd = some sdv ∧
      slots' = slots.set x Option.none) := by
  cases oi with
  | none =>
    left
    simp only [takeSlot, BResult.ok.injEq, Prod.mk.injEq] at h
    exact ⟨rfl, h.1.symm, h.2.symm⟩
  | some x =>
    right
    unfold takeSlot at h
    cases hv : vecGet slots x with
    | ok slot =>
      simp only [hv, BResult.ok_bind] at h
      cases slot with
      | some sdv =>
        simp only [BResult.ok.injEq, Prod.mk.injEq] at h
        exact ⟨x, sdv, rfl, vecGet_ok.mp hv, h.1.symm, h.2.symm⟩
      | none => simp at h
    | err m => simp [hv] at h
    | panic m => simp [hv] at h

/-- Replacing a list entry with a `sectorKey`-equal sector preserves the
`sectorKey` of every position. -/
theorem set_key_preserve {α β : Type} (key : α → β) {l : List α} {i : Nat} {a a' : α}
    (hget : l[i]? = some a) (hkey : key a' = key a) :
    ∀ j : Nat, ((l.set i a')[j]?).map key = (l[j]?).map key := by
  intro j
  by_cases hij : i = j
  · subst hij
    rw [List.getElem?_set_eq_of_lt a' (List.getElem?_eq_some.mp hget).1, hget]
    simp [hkey]
  · rw [List.getElem?_set_ne hij]

theorem addNeighbours_basic {front back : Sidedef} {sectors sec' : List Sector}
    (h : addNeighbours front back sectors = .ok sec') :
    sec'.length = sectors.length ∧
    ∀ j : Nat, (sec'[j]?).map sectorKey = (sectors[j]?).map sectorKey := by
  unfold addNeighbours at h
  split at h
  · cases hf : vecGet sectors front.sector_index with
    | ok fsec =>
      simp only [hf, BResult.ok_bind] at h
      by_cases hm1 : back.sector_index ∈ fsec.neighbours
      · rw [if_pos hm1] at h
        cases hb : vecGet sectors back.sector_index with
        | ok bsec =>
          simp only [hb, BResult.ok_bind, BResult.pure_eq_ok, BResult.ok.injEq] at h
          subst h
          by_cases hm2 : front.sector_index ∈ bsec.neighbours
          · rw [if_pos hm2]
            exact ⟨rfl, fun j => rfl⟩
          · rw [if_neg hm2]
            refine ⟨by simp, ?_⟩
            exact @set_key_preserve _ _ sectorKey _ _ _
              { bsec with neighbours := bsec.neighbours ++ [front.sector_index] }
              (vecGet_ok.mp hb) rfl
        | err m => simp [hb] at h
        | panic m => simp [hb] at h
      · rw [if_neg hm1] at h
        cases hb : vecGet (sectors.set front.sector_index
            { fsec with neighbours := fsec.neighbours ++ [back.sector_index] })
            back.sector_index with
        | ok bsec =>
          simp only [hb, BResult.ok_bind, BResult.pure_eq_ok, BResult.ok.injEq] at h
          subst h
          have hpres1 := @set_key_preserve _ _ sectorKey _ _ _
            { fsec with neighbours := fsec.neighbours ++ [back.sector_index] }
            (vecGet_ok.mp hf) rfl
          by_cases hm2 : front.sector_index ∈ bsec.neighbours
          · rw [if_pos hm2]
            exact ⟨by simp, hpres1⟩
          · rw [if_neg hm2]
            refine ⟨by simp, fun j => ?_⟩
            rw [@set_key_preserve _ _ sectorKey _ _ _
              { bsec with neighbours := bsec.neighbours ++ [front.sector_index] }
              (vecGet_ok.mp hb) rfl j]
            exact hpres1 j
        | err m => simp [hb] at h
        | panic m => simp [hb] at h
    | err m => simp [hf] at h
    | panic m => simp [hf] at h
  · simp only [BResult.pure_eq_ok, BResult.ok.injEq] at h
    subst h
    exact ⟨rfl, fun j => rfl⟩

theorem neighbourSkyStep_basic {sd0 sd1 : Option Sidedef} {sectors : List Sector}
    {a b : Option Sidedef} {sec' : List Sector}
    (h : neighbourSkyStep sd0 sd1 sectors = .ok (a, b, sec')) :
    sec'.length = sectors.length ∧
    ∀ j : Nat, (sec'[j]?).map sectorKey = (sectors[j]?).map sectorKey := by
  cases sd0 with
  | none =>
    simp only [neighbourSkyStep, BResult.pure_eq_ok, BResult.ok.injEq, Prod.mk.injEq] at h
    obtain ⟨-, -, h⟩ := h
    subst h
    exact ⟨rfl, fun j => rfl⟩
  | some front =>
    cases sd1 with
    | none =>
      simp only [neighbourSkyStep, BResult.pure_eq_ok, BResult.ok.injEq, Prod.mk.injEq] at h
      obtain ⟨-, -, h⟩ := h
      subst h
      exact ⟨rfl, fun j => rfl⟩
    | some back =>
      unfold neighbourSkyStep at h
      cases hn : addNeighbours front back sectors with
      | ok sectorsN =>
        simp only [hn, BResult.ok_bind] at h
        cases hf2 : vecGet sectorsN front.sector_index with
        | ok fsec2 =>
          simp only [hf2, BResult.ok_bind] at h
          cases hb2 : vecGet sectorsN back.sector_index with
          | ok bsec2 =>
            simp only [hb2, BResult.ok_bind] at h
            have hbase := addNeighbours_basic hn
            split at h <;>
            · simp only [BResult.pure_eq_ok, BResult.ok.injEq, Prod.mk.injEq] at h
              obtain ⟨-, -, h⟩ := h
              subst h
              exact hbase
          | err m => simp [hb2] at h
          | panic m => simp [hb2] at h
        | err m => simp [hf2] at h
        | panic m => simp [hf2] at h
      | err m => simp [hn] at h
      | panic m => simp [hn] at h

theorem buildLinedef_ok_inv {v : List Vec2} {d : LinedefData}
    {slots : List (Option Sidedef)} {sectors : List Sector} {ld : Linedef}
    {slots' : List (Option Sidedef)} {sectors' : List Sector}
    (h : buildLinedef v d slots sectors = .ok (ld, slots', sectors')) :
    ∃ sd0 slots1 sd1 sd0' sd1' v0 v1,
      takeSlot slots d.sidedef_indices.1 = .ok (sd0, slots1) ∧
      takeSlot slots1 d.sidedef_indices.2 = .ok (sd1, slots') ∧
      neighbourSkyStep sd0 sd1 sectors = .ok (sd0', sd1', sectors') ∧
      vecGet v d.vertex_indices.2 = .ok v1 ∧
      vecGet v d.vertex_indices.1 = .ok v0 ∧
      ld = { line := (v0, (v1.1 - v0.1, v1.2 - v0.2)), flags := d.flags,
             solid_mask := solidMaskFor d.flags, special_type := d.special_type,
             sector_tag := d.sector_tag, sidedefs := (sd0', sd1') } := by
  unfold buildLinedef at h
  cases h1 : takeSlot slots d.sidedef_indices.1 with
  | ok p1 =>
    simp only [h1, BResult.ok_bind] at h
    obtain ⟨sd0, slots1⟩ := p1
    cases h2 : takeSlot slots1 d.sidedef_indices.2 with
    | ok p2 =>
      simp only [h2, BResult.ok_bind] at h
      obtain ⟨sd1, slots2⟩ := p2
      cases h3 : neighbourSkyStep sd0 sd1 sectors with
      | ok p3 =>
        simp only [h3, BResult.ok_bind] at h
        obtain ⟨sd0', sd1', sectors1⟩ := p3
        cases h4 : vecGet v d.vertex_indices.2 with
        | ok v1 =>
          simp only [h4, BResult.ok_bind] at h
          cases h5 : vecGet v d.vertex_indices.1 with
          | ok v0 =>
            simp only [h5, BResult.ok_bind, BResult.pure_eq_ok, BResult.ok.injEq,
              Prod.mk.injEq] at h
            obtain ⟨hld, hsl, hsec⟩ := h
            subst hsl
            subst hsec
            exact ⟨sd0, slots1, sd1, sd0', sd1', v0, v1, rfl, h2, h3, rfl, rfl, hld.symm⟩
          | err m => simp [h5] at h
          | panic m => simp [h5] at h
        | err m => simp [h4] at h
        | panic m => simp [h4] at h
      | err m => simp [h3] at h
      | panic m => simp [h3] at h
    | err m => simp [h2] at h
    | panic m => simp [h2] at h
  | err m => simp [h1] at h
  | panic m => simp [h1] at h

theorem takeSlot_inv {S : List Sidedef} {slots slots' : List (Option Sidedef)}
    {oi : Option Nat} {sd : Option Sidedef}
    (h : takeSlot slots oi = .ok (sd, slots'))
    (hlen : slots.length = S.length)
    (hinv : ∀ (j : Nat) (oa : Option Sidedef), slots[j]? = some oa → oa = Option.none ∨ S[j]? = oa) :
    slots'.length = S.length ∧
    (∀ (j : Nat) (oa : Option Sidedef), slots'[j]? = some oa → oa = Option.none ∨ S[j]? = oa) ∧
    (∀ x, oi = some x → ∃ sdv, sd = some sdv ∧ S[x]? = some sdv) := by
  rcases takeSlot_ok h with ⟨hoi, hsd, hsl⟩ | ⟨x, sdv, hoi, hslot, hsd, hsl⟩
  · subst hsl
    refine ⟨hlen, hinv, ?_⟩
    intro x hx
    rw [hoi] at hx
    cases hx
  · subst hsl
    subst hsd
    refine ⟨by simp [hlen], ?_, ?_⟩
    · intro j oa hj
      by_cases hxj : x = j
      · subst hxj
        rw [List.getElem?_set_eq_of_lt _ (List.getElem?_eq_some.mp hslot).1] at hj
        cases hj
        exact Or.inl rfl
      · rw [List.getElem?_set_ne hxj] at hj
        exact hinv j oa hj
    · intro x' hx'
      rw [hoi] at hx'
      cases hx'
      rcases hinv x _ hslot with hbad | hgood
      · cases hbad
      · exact ⟨sdv, rfl, hgood⟩

theorem buildLinedefs_basic {v : List Vec2} {S : List Sidedef} :
    ∀ (ds : List LinedefData) (slots : List (Option Sidedef)) (sectors : List Sector)
      (res : List Linedef × List (Option Sidedef) × List Sector),
      buildLinedefs v ds slots sectors = .ok res →
      slots.length = S.length →
      (∀ (j : Nat) (oa : Option Sidedef), slots[j]? = some oa → oa = Option.none ∨ S[j]? = oa) →
      (res.2.1.length = S.length ∧
        (∀ (j : Nat) (oa : Option Sidedef), res.2.1[j]? = some oa → oa = Option.none ∨ S[j]? = oa)) ∧
      res.2.2.length = sectors.length ∧
      (∀ j : Nat, (res.2.2[j]?).map sectorKey = (sectors[j]?).map sectorKey) ∧
      res.1.length = ds.length := by
  intro ds
  induction ds with
  | nil =>
    intro slots sectors res h hlen hinv
    simp only [buildLinedefs, BResult.ok.injEq] at h
    subst h
    exact ⟨⟨hlen, hinv⟩, rfl, fun j => rfl, rfl⟩
  | cons d rest ih =>
    intro slots sectors res h hlen hinv
    rw [buildLinedefs] at h
    cases hstep : buildLinedef v d slots sectors with
    | ok p =>
      simp only [hstep, BResult.ok_bind] at h
      obtain ⟨ld, slots1, sectors1⟩ := p
      cases hrest : buildLinedefs v rest slots1 sectors1 with
      | ok q =>
        simp only [hrest, BResult.ok_bind, BResult.ok.injEq] at h
        obtain ⟨lds, slots2, sectors2⟩ := q
        subst h
        obtain ⟨sd0, slotsA, sd1, sd0', sd1', v0, v1, ht1, ht2, hns, -, -, -⟩ :=
          buildLinedef_ok_inv hstep
        obtain ⟨hlenA, hinvA, -⟩ := takeSlot_inv ht1 hlen hinv
        obtain ⟨hlen1, hinv1, -⟩ := takeSlot_inv ht2 hlenA hinvA
        obtain ⟨hslen, hskey⟩ := neighbourSkyStep_basic hns
        obtain ⟨⟨hl2, hi2⟩, hsl2, hsk2, hcnt⟩ := ih slots1 sectors1 (lds, slots2, sectors2)
          hrest hlen1 hinv1
        refine ⟨⟨hl2, hi2⟩, ?_, ?_, ?_⟩
        · exact hsl2.trans hslen
        · intro j
          exact (hsk2 j).trans (hskey j)
        · simp [hcnt]
      | err m => simp [hrest] at h
      | panic m => simp [hrest] at h
    | err m => simp [hstep] at h
    | panic m => simp [hstep] at h

theorem buildSubsectors_basic {linedefs : List Linedef} {segs : List GLSeg} :
    ∀ (ssects : List GLSSectData) (i : Nat) (sectors : List Sector)
      (res : List GLSSect × List Sector),
      buildSubsectors linedefs segs ssects i sectors = .ok res →
      res.2.length = sectors.length ∧
      ∀ j : Nat, (res.2[j]?).map sectorKeySub = (sectors[j]?).map sectorKeySub := by
  intro ssects
  induction ssects with
  | nil =>
    intro i sectors res h
    simp only [buildSubsectors, BResult.ok.injEq] at h
    subst h
    exact ⟨rfl, fun j => rfl⟩
  | cons d rest ih =>
    intro i sectors res h
    rw [buildSubsectors] at h
    split at h
    · simp only [BResult.pure_eq_ok, BResult.ok_bind] at h
      cases hfs : findSectorIndex linedefs
          ((segs.drop d.first_seg_index).take d.seg_count) with
      | ok osec =>
        simp only [hfs, BResult.ok_bind] at h
        cases osec with
        | none => simp at h
        | some k =>
          simp only [BResult.pure_eq_ok, BResult.ok_bind] at h
          cases hg : vecGet sectors k with
          | ok sec =>
            simp only [hg, BResult.ok_bind] at h
            cases hrest : buildSubsectors linedefs segs rest (i + 1)
                (sectors.set k { sec with subsectors := sec.subsectors ++ [i] }) with
            | ok q =>
              simp only [hrest, BResult.ok_bind, BResult.ok.injEq] at h
              obtain ⟨ss, sectors2⟩ := q
              subst h
              obtain ⟨hlen, hkey⟩ := ih (i + 1) _ (ss, sectors2) hrest
              refine ⟨by simpa using hlen, fun j => ?_⟩
              refine (hkey j).trans ?_
              exact @set_key_preserve _ _ sectorKeySub _ _ _
                { sec with subsectors := sec.subsectors ++ [i] }
                (vecGet_ok.mp hg) rfl j
            | err m => simp [hrest] at h
            | panic m => simp [hrest] at h
          | err m => simp [hg] at h
          | panic m => simp [hg] at h
      | err m => simp [hfs] at h
      | panic m => simp [hfs] at h
    · simp only [BResult.panic_bind] at h
      exact absurd h (by simp)

theorem buildMap_ok_inv {md : MapData} {sky_name : String}
    {fs ws : Store Unit Unit} {m : Map} (h : buildMap md sky_name fs ws = .ok m) :
    ∃ (lres : List Linedef × List (Option Sidedef) × List Sector)
      (segs : List GLSeg) (sres : List GLSSect × List Sector),
      buildLinedefs md.vertexes md.linedefs
        ((buildSidedefs md.sidedefs [] (Store.load trivialImport sky_name ws).2).1.map some)
        (buildSectors md.sectors [] fs).1 = .ok lres ∧
      buildSegs md.gl_vert md.vertexes md.gl_segs = .ok segs ∧
      buildSubsectors lres.1 segs md.gl_ssect 0 lres.2.2 = .ok sres ∧
      m = { linedefs := lres.1, sectors := sres.2, subsectors := sres.1,
            nodes := buildNodes md.gl_nodes,
            sky := (Store.load trivialImport sky_name ws).1 } := by
  unfold buildMap at h
  cases hbl : buildLinedefs md.vertexes md.linedefs
      ((buildSidedefs md.sidedefs [] (Store.load trivialImport sky_name ws).2).1.map some)
      (buildSectors md.sectors [] fs).1 with
  | ok lres =>
    simp only [hbl, BResult.ok_bind] at h
    cases hsegs : buildSegs md.gl_vert md.vertexes md.gl_segs with
    | ok segs =>
      simp only [hsegs, BResult.ok_bind] at h
      cases hss : buildSubsectors lres.1 segs md.gl_ssect 0 lres.2.2 with
      | ok sres =>
        simp only [hss, BResult.ok_bind, BResult.ok.injEq] at h
        exact ⟨lres, segs, sres, rfl, rfl, hss, h.symm⟩
      | err m' => simp [hss] at h
      | panic m' => simp [hss] at h
    | err m' => simp [hsegs] at h
    | panic m' => simp [hsegs] at h
  | err m' => simp [hbl] at h
  | panic m' => simp [hbl] at h

theorem map_key_some {α β : Type} {key : α → β} {l : List α} {i : Nat} {k : β}
    (h : (l[i]?).map key = some k) : ∃ a, l[i]? = some a ∧ key a = k := by
  cases hl : l[i]? with
  | none => rw [hl] at h; cases h
  | some a =>
    rw [hl] at h
    simp only [Option.map_some', Option.some.injEq] at h
    exact ⟨a, rfl, h⟩

theorem resolveSky_sky_iff (c : List (String × Nat)) (s : Store Unit Unit)
    (oname : Option String) :
    (resolveSky c s oname).1 = TextureType.sky ↔ oname = some "F_SKY1" := by
  cases oname with
  | none => simp [resolveSky]
  | some name =>
    by_cases h : name = "F_SKY1"
    · subst h; simp [resolveSky]
    · simp [resolveSky, h]

theorem buildSectors_length :
    ∀ (l : List SectorData) (c : List (String × Nat)) (s : Store Unit Unit),
      (buildSectors l c s).1.length = l.length := by
  intro l
  induction l with
  | nil => intro c s; rfl
  | cons d rest ih => intro c s; simp [buildSectors, ih]

theorem buildSectors_get :
    ∀ (l : List SectorData) (c : List (String × Nat)) (s : Store Unit Unit) (i : Nat)
      (d : SectorData), l[i]? = some d →
      ∃ sec, (buildSectors l c s).1[i]? = some sec ∧
        sec.interval = (d.floor_height, d.ceiling_height) ∧
        sec.light_level = d.light_level ∧
        sec.special_type = d.special_type ∧
        sec.sector_tag = d.special_type ∧
        sec.subsectors = [] ∧ sec.neighbours = [] ∧
        (sec.ceiling_texture = TextureType.sky ↔ d.ceiling_flat_name = some "F_SKY1") := by
  intro l
  induction l with
  | nil => intro c s i d hd; simp at hd
  | cons d0 rest ih =>
    intro c s i d hd
    cases i with
    | zero =>
      simp only [List.getElem?_cons_zero, Option.some.injEq] at hd
      subst hd
      simp only [buildSectors, List.getElem?_cons_zero]
      exact ⟨_, rfl, rfl, rfl, rfl, rfl, rfl, rfl, resolveSky_sky_iff _ _ d0.ceiling_flat_name⟩
    | succ i' =>
      simp only [List.getElem?_cons_succ] at hd
      obtain ⟨sec, hsec, hrest⟩ := ih _ _ i' d hd
      exact ⟨sec, by simpa [buildSectors] using hsec, hrest⟩

theorem buildSidedefs_length :
    ∀ (l : List SidedefData) (c : List (String × Nat)) (s : Store Unit Unit),
      (buildSidedefs l c s).1.length = l.length := by
  intro l
  induction l with
  | nil => intro c s; rfl
  | cons d rest ih => intro c s; simp [buildSidedefs, ih]

theorem buildSidedefs_get :
    ∀ (l : List SidedefData) (c : List (String × Nat)) (s : Store Unit Unit) (i : Nat)
      (d : SidedefData), l[i]? = some d →
      ∃ sd, (buildSidedefs l c s).1[i]? = some sd ∧ sd.sector_index = d.sector_index := by
  intro l
  induction l with
  | nil => intro c s i d hd; simp at hd
  | cons d0 rest ih =>
    intro c s i d hd
    cases i with
    | zero =>
      simp only [List.getElem?_cons_zero, Option.some.injEq] at hd
      subst hd
      simp only [buildSidedefs, List.getElem?_cons_zero]
      exact ⟨_, rfl, rfl⟩
    | succ i' =>
      simp only [List.getElem?_cons_succ] at hd
      obtain ⟨sd, hsd, hrest⟩ := ih _ _ i' d hd
      exact ⟨sd, by simpa [buildSidedefs] using hsd, hrest⟩

/-- The map-some slot list satisfies the slot invariant over `S`. -/
theorem mapSome_inv (S : List Sidedef) :
    (S.map some).length = S.length ∧
    ∀ (j : Nat) (oa : Option Sidedef),
      (S.map some)[j]? = some oa → oa = Option.none ∨ S[j]? = oa := by
  refine ⟨by simp, ?_⟩
  intro j oa hj
  right
  rw [List.getElem?_map] at hj
  cases hS : S[j]? with
  | none => rw [hS] at hj; simp at hj
  | some sd =>
    rw [hS] at hj
    simp only [Option.map_some', Option.some.injEq] at hj
    exact hj

/-! ## Claim C7 -/

/-- Claim C7: in the built map, each sector's special-type output and
sector-tag output both equal the decoded record's special-type field;
the record's separately decoded sector-tag field is discarded. -/
theorem claim_c7 {md : MapData} {sky_name : String} {fs ws : Store Unit Unit} {m : Map}
    (hb : buildMap md sky_name fs ws = .ok m)
    (i : Nat) (d : SectorData) (hd : md.sectors[i]? = some d) :
    ∃ sec, m.sectors[i]? = some sec ∧
      sec.special_type = d.special_type ∧ sec.sector_tag = d.special_type := by
  obtain ⟨lres, segs, sres, hbl, hsegs, hss, hm⟩ := buildMap_ok_inv hb
  obtain ⟨sec0, hsec0, hint, hlight, hspec, htag, hsub, hneigh, hsky⟩ :=
    buildSectors_get md.sectors [] fs i d hd
  obtain ⟨hmlen, hminv⟩ :=
    mapSome_inv (buildSidedefs md.sidedefs [] (Store.load trivialImport sky_name ws).2).1
  obtain ⟨-, hsl2, hsk2, -⟩ := buildLinedefs_basic md.linedefs _ _ lres hbl hmlen hminv
  obtain ⟨hsublen, hsubkey⟩ := buildSubsectors_basic md.gl_ssect 0 lres.2.2 sres hss
  have h1 : (lres.2.2[i]?).map sectorKey = some (sectorKey sec0) := by
    rw [hsk2 i, hsec0]
    rfl
  obtain ⟨sec1, hsec1, hkey1⟩ := map_key_some h1
  have h2 : (sres.2[i]?).map sectorKeySub = some (sectorKeySub sec1) := by
    rw [hsubkey i, hsec1]
    rfl
  obtain ⟨sec2, hsec2, hkey2⟩ := map_key_some h2
  simp only [sectorKey, Prod.mk.injEq] at hkey1
  simp only [sectorKeySub, Prod.mk.injEq] at hkey2
  refine ⟨sec2, ?_, ?_, ?_⟩
  · rw [hm]
    exact hsec2
  · rw [hkey2.2.2.2.2.1, hkey1.2.2.2.2.1, hspec]
  · rw [hkey2.2.2.2.2.2.1, hkey1.2.2.2.2.2.1, htag]

/-- Witness for C7: the one-sector map `c7data` builds, and the built
sector carries `special_type = 3` in both outputs although the source
record's sector-tag field was 9. -/
theorem claim_c7_witness :
    buildMap c7data "SKY1" Store.empty Store.empty = .ok c7map ∧
    c7data.sectors[0]? = some sectorZero ∧
    sectorZero.sector_tag = 9 ∧
    (∃ sec, c7map.sectors[0]? = some sec ∧
      sec.special_type = sectorZero.special_type ∧
      sec.sector_tag = sectorZero.special_type) := by
  refine ⟨rfl, rfl, rfl, ?_⟩
  exact @claim_c7 c7data "SKY1" Store.empty Store.empty c7map rfl 0 sectorZero rfl

/-! ## Claim C3 -/

theorem list_getElem?_reverse {α : Type} (l : List α) (i : Nat) (h : i < l.length) :
    l.reverse[i]? = l[l.length - 1 - i]? := by
  rw [List.getElem?_eq_getElem (by simpa using h), List.getElem?_eq_getElem (by omega)]
  simp [List.getElem_reverse]

theorem rewriteChild_eq (n : Nat) (c : NodeChild) :
    rewriteChild n c =
      match c with
      | NodeChild.subsector s => NodeChild.subsector s
      | NodeChild.node x => NodeChild.node (n - 1 - x) := by
  cases c with
  | subsector s => rfl
  | node x =>
    show NodeChild.node (n - x - 1) = NodeChild.node (n - 1 - x)
    congr 1
    omega

/-- Claim C3: for a validated input node array of length N, the built
node array is its reverse — node 0 of the output is source node N−1 and,
in general, output node `i` is source node `N−1−i`; every internal child
reference `x` is rewritten to `N−1−x` and every leaf (subsector) child
reference is unchanged; the partition line and child boxes are carried
over. -/
theorem claim_c3 {md : MapData} {sky_name : String} {fs ws : Store Unit Unit} {m : Map}
    (hv : validateMapData md = .ok ())
    (hb : buildMap md sky_name fs ws = .ok m) :
    m.nodes.length = md.gl_nodes.length ∧
    ∀ i : Nat, i < md.gl_nodes.length →
      ∃ d, md.gl_nodes[md.gl_nodes.length - 1 - i]? = some d ∧
        m.nodes[i]? = some
          { partition_line := (d.partition_point, d.partition_dir),
            child_bboxes := d.child_bboxes,
            child_indices :=
              ((match d.child_indices.1 with
                | NodeChild.subsector s => NodeChild.subsector s
                | NodeChild.node x => NodeChild.node (md.gl_nodes.length - 1 - x)),
               (match d.child_indices.2 with
                | NodeChild.subsector s => NodeChild.subsector s
                | NodeChild.node x => NodeChild.node (md.gl_nodes.length - 1 - x))) } := by
  obtain ⟨lres, segs, sres, hbl, hsegs, hss, hm⟩ := buildMap_ok_inv hb
  subst hm
  have hnodes : ∀ i : Nat, i < md.gl_nodes.length →
      (buildNodes md.gl_nodes)[i]? =
        (md.gl_nodes[md.gl_nodes.length - 1 - i]?).map fun d =>
          { partition_line := (d.partition_point, d.partition_dir),
            child_bboxes := d.child_bboxes,
            child_indices := (rewriteChild md.gl_nodes.length d.child_indices.1,
                              rewriteChild md.gl_nodes.length d.child_indices.2) } := by
    intro i hi
    unfold buildNodes
    rw [List.getElem?_map, list_getElem?_reverse md.gl_nodes i hi]
  refine ⟨by simp [buildNodes], ?_⟩
  intro i hi
  cases hd : md.gl_nodes[md.gl_nodes.length - 1 - i]? with
  | none =>
    exfalso
    have hlt : md.gl_nodes.length - 1 - i < md.gl_nodes.length := by omega
    rw [List.getElem?_eq_getElem hlt] at hd
    cases hd
  | some d =>
    refine ⟨d, rfl, ?_⟩
    show (buildNodes md.gl_nodes)[i]? = _
    rw [hnodes i hi, hd]
    simp only [Option.map_some', Option.some.injEq]
    rw [rewriteChild_eq, rewriteChild_eq]

/-- Witness for C3: `c3data` has one node whose children are internal
references to node 0; after the build the single node keeps index 0 and
its children are rewritten to `1 − 1 − 0 = 0`. -/
theorem claim_c3_witness :
    validateMapData c3data = Except.ok () ∧
    buildMap c3data "SKY1" Store.empty Store.empty = .ok c3map ∧
    (c3map.nodes.length = c3data.gl_nodes.length ∧
     ∀ i : Nat, i < c3data.gl_nodes.length →
       ∃ d, c3data.gl_nodes[c3data.gl_nodes.length - 1 - i]? = some d ∧
         c3map.nodes[i]? = some
           { partition_line := (d.partition_point, d.partition_dir),
             child_bboxes := d.child_bboxes,
             child_indices :=
               ((match d.child_indices.1 with
                 | NodeChild.subsector s => NodeChild.subsector s
                 | NodeChild.node x => NodeChild.node (c3data.gl_nodes.length - 1 - x)),
                (match d.child_indices.2 with
                 | NodeChild.subsector s => NodeChild.subsector s
                 | NodeChild.node x => NodeChild.node (c3data.gl_nodes.length - 1 - x))) }) :=
  ⟨rfl, rfl, @claim_c3 c3data "SKY1" Store.empty Store.empty c3map rfl rfl⟩

/-! ## Claim C2 -/

theorem takeSlot_ne_err (slots : List (Option Sidedef)) (oi : Option Nat) (msg : String) :
    takeSlot slots oi ≠ .err msg := by
  cases oi with
  | none => simp [takeSlot]
  | some x =>
    unfold takeSlot
    cases hv : vecGet slots x with
    | ok slot => cases slot <;> simp [hv]
    | err m => exact absurd hv (vecGet_ne_err _ _ _)
    | panic m => simp [hv]

theorem addNeighbours_ne_err (front back : Sidedef) (sectors : List Sector) (msg : String) :
    addNeighbours front back sectors ≠ .err msg := by
  unfold addNeighbours
  split
  · cases hf : vecGet sectors front.sector_index with
    | ok fsec =>
      simp only [hf, BResult.ok_bind]
      cases hb : vecGet (if back.sector_index ∈ fsec.neighbours then sectors
          else sectors.set front.sector_index
            { fsec with neighbours := fsec.neighbours ++ [back.sector_index] })
          back.sector_index with
      | ok bsec => simp [hb]
      | err m => exact absurd hb (vecGet_ne_err _ _ _)
      | panic m => simp [hb]
    | err m => exact absurd hf (vecGet_ne_err _ _ _)
    | panic m => simp [hf]
  · simp

theorem neighbourSkyStep_ne_err (sd0 sd1 : Option Sidedef) (sectors : List Sector)
    (msg : String) : neighbourSkyStep sd0 sd1 sectors ≠ .err msg := by
  cases sd0 with
  | none => simp [neighbourSkyStep]
  | some front =>
    cases sd1 with
    | none => simp [neighbourSkyStep]
    | some back =>
      unfold neighbourSkyStep
      cases hn : addNeighbours front back sectors with
      | ok sectorsN =>
        simp only [hn, BResult.ok_bind]
        cases hf2 : vecGet sectorsN front.sector_index with
        | ok fsec2 =>
          simp only [hf2, BResult.ok_bind]
          cases hb2 : vecGet sectorsN back.sector_index with
          | ok bsec2 =>
            simp only [hb2, BResult.ok_bind]
            split <;> simp
          | err m => exact absurd hb2 (vecGet_ne_err _ _ _)
          | panic m => simp [hb2]
        | err m => exact absurd hf2 (vecGet_ne_err _ _ _)
        | panic m => simp [hf2]
      | err m => exact absurd hn (addNeighbours_ne_err _ _ _ _)
      | panic m => simp [hn]

theorem buildLinedef_ne_err (v : List Vec2) (d : LinedefData)
    (slots : List (Option Sidedef)) (sectors : List Sector) (msg : String) :
    buildLinedef v d slots sectors ≠ .err msg := by
  unfold buildLinedef
  cases h1 : takeSlot slots d.sidedef_indices.1 with
  | ok p1 =>
    simp only [h1, BResult.ok_bind]
    obtain ⟨sd0, slots1⟩ := p1
    cases h2 : takeSlot slots1 d.sidedef_indices.2 with
    | ok p2 =>
      simp only [h2, BResult.ok_bind]
      obtain ⟨sd1, slots2⟩ := p2
      cases h3 : neighbourSkyStep sd0 sd1 sectors with
      | ok p3 =>
        simp only [h3, BResult.ok_bind]
        obtain ⟨sd0', sd1', sectors1⟩ := p3
        cases h4 : vecGet v d.vertex_indices.2 with
        | ok v1 =>
          simp only [h4, BResult.ok_bind]
          cases h5 : vecGet v d.vertex_indices.1 with
          | ok v0 => simp [h5]
          | err m => exact absurd h5 (vecGet_ne_err _ _ _)
          | panic m => simp [h5]
        | err m => exact absurd h4 (vecGet_ne_err _ _ _)
        | panic m => simp [h4]
      | err m => exact absurd h3 (neighbourSkyStep_ne_err _ _ _ _)
      | panic m => simp [h3]
    | err m => exact absurd h2 (takeSlot_ne_err _ _ _)
    | panic m => simp [h2]
  | err m => exact absurd h1 (takeSlot_ne_err _ _ _)
  | panic m => simp [h1]

theorem buildLinedef_double_panic {v : List Vec2} {d : LinedefData}
    {slots : List (Option Sidedef)} {sectors : List Sector} {k : Nat}
    (hd : d.sidedef_indices = (some k, some k)) :
    (buildLinedef v d slots sectors).isPanic = true := by
  unfold buildLinedef
  rw [hd]
  cases hv : vecGet slots k with
  | ok slot =>
    cases slot with
    | none => simp [takeSlot, hv, BResult.isPanic]
    | some sd =>
      have hk : k < slots.length := (List.getElem?_eq_some.mp (vecGet_ok.mp hv)).1
      have hv2 : vecGet (slots.set k Option.none) k = .ok Option.none :=
        vecGet_ok.mpr (List.getElem?_set_eq_of_lt _ (by simpa using hk))
      simp [takeSlot, hv, hv2, BResult.isPanic]
  | err m => exact absurd hv (vecGet_ne_err _ _ _)
  | panic m => simp [takeSlot, hv, BResult.isPanic]

theorem buildLinedefs_double_panic {v : List Vec2} {k : Nat} :
    ∀ (ds : List LinedefData) (slots : List (Option Sidedef)) (sectors : List Sector),
      (∃ d ∈ ds, d.sidedef_indices = (some k, some k)) →
      (buildLinedefs v ds slots sectors).isPanic = true := by
  intro ds
  induction ds with
  | nil =>
    rintro slots sectors ⟨d, hd, -⟩
    simp at hd
  | cons d0 rest ih =>
    rintro slots sectors ⟨d, hd, hdd⟩
    rw [buildLinedefs]
    rcases List.mem_cons.mp hd with rfl | hmem
    · exact BResult.isPanic_bind _ (@buildLinedef_double_panic v d slots sectors k hdd)
    · cases hstep : buildLinedef v d0 slots sectors with
      | ok p =>
        simp only [hstep, BResult.ok_bind]
        obtain ⟨ld, slots1, sectors1⟩ := p
        have hrec := ih slots1 sectors1 ⟨d, hmem, hdd⟩
        cases hq : buildLinedefs v rest slots1 sectors1 with
        | panic m => simp [hq, BResult.isPanic]
        | err m => rw [hq] at hrec; simp [BResult.isPanic] at hrec
        | ok q => rw [hq] at hrec; simp [BResult.isPanic] at hrec
      | err m => exact absurd hstep (buildLinedef_ne_err _ _ _ _ _)
      | panic m => simp [hstep, BResult.isPanic]

/-- Counterexample to C2 as stated: `c2data` passes the cross-reference
validation, yet the builder panics on it (its one linedef claims sidedef
slot 0 for both sides) — a data-driven panic, not a registry programmer
error. -/
theorem claim_c2_counterexample :
    validateMapData c2data = Except.ok () ∧
    (buildMap c2data "SKY1" Store.empty Store.empty).isPanic = true :=
  ⟨rfl, rfl⟩

/-- Claim C2 (amended: decode and validation failures are error values,
but the build phase is not panic-free on data-driven input — whenever
any linedef's two sides reference the same sidedef slot, the builder
panics via `take().unwrap()`, even though such data passes validation). -/
theorem claim_c2 (md : MapData) (sky_name : String) (fs ws : Store Unit Unit) (k : Nat)
    (hex : ∃ d ∈ md.linedefs, d.sidedef_indices = (some k, some k)) :
    (buildMap md sky_name fs ws).isPanic = true := by
  unfold buildMap
  have hpanic := @buildLinedefs_double_panic md.vertexes k md.linedefs
    ((buildSidedefs md.sidedefs [] (Store.load trivialImport sky_name ws).2).1.map some)
    (buildSectors md.sectors [] fs).1 hex
  cases h : buildLinedefs md.vertexes md.linedefs
      ((buildSidedefs md.sidedefs [] (Store.load trivialImport sky_name ws).2).1.map some)
      (buildSectors md.sectors [] fs).1 with
  | panic m => simp [h, BResult.isPanic]
  | err m => rw [h] at hpanic; simp [BResult.isPanic] at hpanic
  | ok lres => rw [h] at hpanic; simp [BResult.isPanic] at hpanic

/-- Witness for C2's amended statement at `c2data`. -/
theorem claim_c2_witness :
    (∃ d ∈ c2data.linedefs, d.sidedef_indices = (some 0, some 0)) ∧
    (buildMap c2data "SKY1" Store.empty Store.empty).isPanic = true :=
  ⟨by decide, claim_c2 c2data "SKY1" Store.empty Store.empty 0 (by decide)⟩

/-! ## Claim C4 -/

theorem neighbourSkyStep_sky {front back : Sidedef} {sectors : List Sector}
    {a b : Option Sidedef} {sec' : List Sector}
    (h : neighbourSkyStep (some front) (some back) sectors = .ok (a, b, sec'))
    (hfs : ∃ s, sectors[front.sector_index]? = some s ∧
      s.ceiling_texture = TextureType.sky)
    (hbs : ∃ s, sectors[back.sector_index]? = some s ∧
      s.ceiling_texture = TextureType.sky) :
    a = some { front with top_texture := TextureType.sky } ∧
    b = some { back with top_texture := TextureType.sky } := by
  unfold neighbourSkyStep at h
  cases hn : addNeighbours front back sectors with
  | ok sectorsN =>
    simp only [hn, BResult.ok_bind] at h
    obtain ⟨-, hkeyN⟩ := addNeighbours_basic hn
    cases hf2 : vecGet sectorsN front.sector_index with
    | ok fsec2 =>
      simp only [hf2, BResult.ok_bind] at h
      cases hb2 : vecGet sectorsN back.sector_index with
      | ok bsec2 =>
        simp only [hb2, BResult.ok_bind] at h
        obtain ⟨s1, hs1, hc1⟩ := hfs
        obtain ⟨s2, hs2, hc2⟩ := hbs
        have hk1 := hkeyN front.sector_index
        rw [vecGet_ok.mp hf2, hs1] at hk1
        simp only [Option.map_some', Option.some.injEq] at hk1
        have hceil1 : fsec2.ceiling_texture = s1.ceiling_texture :=
          congrArg (fun t => t.2.2.1) hk1
        have hk2 := hkeyN back.sector_index
        rw [vecGet_ok.mp hb2, hs2] at hk2
        simp only [Option.map_some', Option.some.injEq] at hk2
        have hceil2 : bsec2.ceiling_texture = s2.ceiling_texture :=
          congrArg (fun t => t.2.2.1) hk2
        have hcond : (fsec2.ceiling_texture.is_sky && bsec2.ceiling_texture.is_sky) = true := by
          rw [hceil1, hc1, hceil2, hc2]
          rfl
        rw [hcond] at h
        rw [if_pos rfl] at h
        simp only [BResult.pure_eq_ok, BResult.ok.injEq, Prod.mk.injEq] at h
        exact ⟨h.1.symm, h.2.1.symm⟩
      | err m => simp [hb2] at h
      | panic m => simp [hb2] at h
    | err m => simp [hf2] at h
    | panic m => simp [hf2] at h
  | err m => simp [hn] at h
  | panic m => simp [hn] at h

theorem buildLinedefs_sky {v : List Vec2} {S : List Sidedef} {secs0 : List Sector} :
    ∀ (ds : List LinedefData) (slots : List (Option Sidedef)) (sectors : List Sector)
      (res : List Linedef × List (Option Sidedef) × List Sector),
      buildLinedefs v ds slots sectors = .ok res →
      slots.length = S.length →
      (∀ (j : Nat) (oa : Option Sidedef), slots[j]? = some oa →
        oa = Option.none ∨ S[j]? = oa) →
      (∀ j : Nat, (sectors[j]?).map sectorKey = (secs0[j]?).map sectorKey) →
      ∀ (i : Nat) (d : LinedefData), ds[i]? = some d →
        ∀ f b : Nat, d.sidedef_indices = (some f, some b) →
        ∀ sdf sdb : Sidedef, S[f]? = some sdf → S[b]? = some sdb →
        (∃ s, secs0[sdf.sector_index]? = some s ∧
          s.ceiling_texture = TextureType.sky) →
        (∃ s, secs0[sdb.sector_index]? = some s ∧
          s.ceiling_texture = TextureType.sky) →
        ∃ lout, res.1[i]? = some lout ∧
          lout.sidedefs = (some { sdf with top_texture := TextureType.sky },
                           some { sdb with top_texture := TextureType.sky }) := by
  intro ds
  induction ds with
  | nil => intro slots sectors res h hlen hinv hsec i d hd; simp at hd
  | cons d0 rest ih =>
    intro slots sectors res h hlen hinv hsec i d hd f b hfb sdf sdb hSf hSb hskyf hskyb
    rw [buildLinedefs] at h
    cases hstep : buildLinedef v d0 slots sectors with
    | ok p =>
      simp only [hstep, BResult.ok_bind] at h
      obtain ⟨ld, slots1, sectors1⟩ := p
      cases hrest : buildLinedefs v rest slots1 sectors1 with
      | ok q =>
        simp only [hrest, BResult.ok_bind, BResult.ok.injEq] at h
        obtain ⟨lds, slots2, sectors2⟩ := q
        subst h
        cases i with
        | zero =>
          simp only [List.getElem?_cons_zero, Option.some.injEq] at hd
          subst hd
          obtain ⟨sd0, slotsA, sd1, sd0', sd1', v0, v1, ht1, ht2, hns, -, -, hld⟩ :=
            buildLinedef_ok_inv hstep
          obtain ⟨hlenA, hinvA, hcontent1⟩ := takeSlot_inv ht1 hlen hinv
          obtain ⟨hlen1, hinv1, hcontent2⟩ := takeSlot_inv ht2 hlenA hinvA
          obtain ⟨sdv1, hsd0, hS1⟩ := hcontent1 f (by rw [hfb])
          obtain ⟨sdv2, hsd1, hS2⟩ := hcontent2 b (by rw [hfb])
          rw [hSf] at hS1
          rw [hSb] at hS2
          cases hS1
          cases hS2
          subst hsd0
          subst hsd1
          have hfs' : ∃ s, sectors[sdf.sector_index]? = some s ∧
              s.ceiling_texture = TextureType.sky := by
            obtain ⟨s0, hs0, hcs⟩ := hskyf
            have hmk := hsec sdf.sector_index
            rw [hs0] at hmk
            obtain ⟨s', hs', hk⟩ := map_key_some hmk
            refine ⟨s', hs', ?_⟩
            have := congrArg (fun t => t.2.2.1) hk
            simp only [sectorKey] at this
            rw [this, hcs]
          have hbs' : ∃ s, sectors[sdb.sector_index]? = some s ∧
              s.ceiling_texture = TextureType.sky := by
            obtain ⟨s0, hs0, hcs⟩ := hskyb
            have hmk := hsec sdb.sector_index
            rw [hs0] at hmk
            obtain ⟨s', hs', hk⟩ := map_key_some hmk
            refine ⟨s', hs', ?_⟩
            have := congrArg (fun t => t.2.2.1) hk
            simp only [sectorKey] at this
            rw [this, hcs]
          obtain ⟨ha, hb2⟩ := neighbourSkyStep_sky hns hfs' hbs'
          refine ⟨ld, by simp, ?_⟩
          rw [hld]
          rw [ha, hb2]
        | succ i' =>
          simp only [List.getElem?_cons_succ] at hd
          obtain ⟨sd0, slotsA, sd1, sd0', sd1', v0, v1, ht1, ht2, hns, -, -, -⟩ :=
            buildLinedef_ok_inv hstep
          obtain ⟨hlenA, hinvA, -⟩ := takeSlot_inv ht1 hlen hinv
          obtain ⟨hlen1, hinv1, -⟩ := takeSlot_inv ht2 hlenA hinvA
          obtain ⟨-, hkeyN⟩ := neighbourSkyStep_basic hns
          have hsec1 : ∀ j : Nat, (sectors1[j]?).map sectorKey = (secs0[j]?).map sectorKey :=
            fun j => (hkeyN j).trans (hsec j)
          have hih := ih slots1 sectors1 (lds, slots2, sectors2) hrest hlen1 hinv1 hsec1
            i' d hd f b hfb sdf sdb hSf hSb hskyf hskyb
          simpa using hih
      | err m => simp [hrest] at h
      | panic m => simp [hrest] at h
    | err m => simp [hstep] at h
    | panic m => simp [hstep] at h

/-- Claim C4: for a two-sided linedef whose front and back sectors both
have the ceiling flat literally named `F_SKY1` (which always resolves to
Sky), the built map has the top texture of both of that linedef's
sidedefs equal to Sky, regardless of the explicit top-texture names in
the data. -/
theorem claim_c4 {md : MapData} {sky_name : String} {fs ws : Store Unit Unit} {m : Map}
    (hb : buildMap md sky_name fs ws = .ok m)
    (i : Nat) (d : LinedefData) (hld : md.linedefs[i]? = some d)
    (f b : Nat) (hfb : d.sidedef_indices = (some f, some b))
    (sdf sdb : SidedefData) (hf : md.sidedefs[f]? = some sdf)
    (hbk : md.sidedefs[b]? = some sdb)
    (secf secb : SectorData) (hsf : md.sectors[sdf.sector_index]? = some secf)
    (hsb : md.sectors[sdb.sector_index]? = some secb)
    (hskyf : secf.ceiling_flat_name = some "F_SKY1")
    (hskyb : secb.ceiling_flat_name = some "F_SKY1") :
    ∃ lout s1 s2, m.linedefs[i]? = some lout ∧
      lout.sidedefs = (some s1, some s2) ∧
      s1.top_texture = TextureType.sky ∧ s2.top_texture = TextureType.sky := by
  obtain ⟨lres, segs, sres, hbl, hsegs, hss, hm⟩ := buildMap_ok_inv hb
  obtain ⟨sdf', hSf, hσf⟩ :=
    buildSidedefs_get md.sidedefs [] (Store.load trivialImport sky_name ws).2 f sdf hf
  obtain ⟨sdb', hSb, hσb⟩ :=
    buildSidedefs_get md.sidedefs [] (Store.load trivialImport sky_name ws).2 b sdb hbk
  obtain ⟨secf0, hsecf0, -, -, -, -, -, -, hskyf0⟩ :=
    buildSectors_get md.sectors [] fs sdf.sector_index secf hsf
  obtain ⟨secb0, hsecb0, -, -, -, -, -, -, hskyb0⟩ :=
    buildSectors_get md.sectors [] fs sdb.sector_index secb hsb
  obtain ⟨hmlen, hminv⟩ :=
    mapSome_inv (buildSidedefs md.sidedefs [] (Store.load trivialImport sky_name ws).2).1
  obtain ⟨lout, hlout, hsides⟩ := buildLinedefs_sky md.linedefs _ _ lres hbl hmlen hminv
    (fun j => rfl) i d hld f b hfb sdf' sdb' hSf hSb
    ⟨secf0, by rw [hσf]; exact hsecf0, hskyf0.mpr hskyf⟩
    ⟨secb0, by rw [hσb]; exact hsecb0, hskyb0.mpr hskyb⟩
  refine ⟨lout, _, _, ?_, hsides, rfl, rfl⟩
  rw [hm]
  exact hlout

/-- Witness for C4 at `c4data`: both built sectors have Sky ceilings, and
both sidedefs of the joining linedef get Sky top textures. -/
theorem claim_c4_witness :
    buildMap c4data "SKY1" Store.empty Store.empty = .ok c4map ∧
    (∃ lout s1 s2, c4map.linedefs[0]? = some lout ∧
      lout.sidedefs = (some s1, some s2) ∧
      s1.top_texture = TextureType.sky ∧ s2.top_texture = TextureType.sky) := by
  refine ⟨rfl, ?_⟩
  exact @claim_c4 c4data "SKY1" Store.empty Store.empty c4map rfl 0 _ rfl 0 1 rfl
    sidedefZero { sidedefZero with sector_index := 1 } rfl rfl
    { sectorZero with ceiling_flat_name := some "F_SKY1" }
    { sectorZero with ceiling_flat_name := some "F_SKY1" } rfl rfl rfl rfl

end Ferret

namespace Ferret

theorem sidePairJoin_none1 (sd1 : Option Sidedef) (s t : Nat) :
    sidePairJoin Option.none sd1 s t = false := by
  cases sd1 <;> rfl

theorem sidePairJoin_none2 (sd0 : Option Sidedef) (s t : Nat) :
    sidePairJoin sd0 Option.none s t = false := by
  cases sd0 <;> rfl

end Ferret

namespace Ferret

theorem count_push (l : List Nat) (x y : Nat) :
    (l ++ [x]).count y = l.count y + if x = y then 1 else 0 := by
  rw [List.count_append, List.count_singleton']

theorem count_one_mem {J : Bool} {l : List Nat} {t : Nat}
    (hc : l.count t = if J then 1 else 0) (hm : t ∈ l) : J = true := by
  cases J with
  | true => rfl
  | false =>
    simp only [Bool.false_eq_true, if_false] at hc
    have := List.count_pos_iff.mpr hm
    omega

theorem if_or_eq {P Q : Prop} [Decidable P] [Decidable Q] (h : Q → P) :
    (if P ∨ Q then (1 : Nat) else 0) = if P then 1 else 0 := by
  by_cases hP : P
  · rw [if_pos (Or.inl hP), if_pos hP]
  · rw [if_neg hP, if_neg ?_]
    rintro (h1 | h2)
    · exact hP h1
    · exact hP (h h2)

theorem addNeighbours_counts {front back : Sidedef} {sectors sec' : List Sector}
    (h : addNeighbours front back sectors = .ok sec')
    (J : Nat → Nat → Bool) (hJsym : ∀ a b : Nat, J a b = J b a)
    (hcnt : ∀ (a b : Nat), a ≠ b → ∀ sec, sectors[a]? = some sec →
      sec.neighbours.count b = if J a b then 1 else 0) :
    ∀ (s t : Nat), s ≠ t → ∀ sec, sec'[s]? = some sec →
      sec.neighbours.count t =
        if (J s t || ((front.sector_index == s && back.sector_index == t) ||
                      (front.sector_index == t && back.sector_index == s))) then 1 else 0 := by
  intro s t hst sec hsec
  simp only [Bool.or_eq_true, Bool.and_eq_true, beq_iff_eq]
  unfold addNeighbours at h
  split at h
  case isFalse hσ =>
    have heq : front.sector_index = back.sector_index := not_not.mp hσ
    simp only [BResult.pure_eq_ok, BResult.ok.injEq] at h
    subst h
    rw [hcnt s t hst sec hsec]
    refine (if_or_eq ?_).symm
    rintro (⟨h1, h2⟩ | ⟨h1, h2⟩)
    · exact absurd (h1.symm.trans (heq.trans h2)) hst
    · exact absurd (h2.symm.trans (heq.symm.trans h1)) hst
  case isTrue hσ =>
    cases hf : vecGet sectors front.sector_index with
    | ok fsec =>
      simp only [hf, BResult.ok_bind] at h
      have hfs : sectors[front.sector_index]? = some fsec := vecGet_ok.mp hf
      by_cases hm1 : back.sector_index ∈ fsec.neighbours
      · rw [if_pos hm1] at h
        cases hb : vecGet sectors back.sector_index with
        | ok bsec =>
          simp only [hb, BResult.ok_bind, BResult.pure_eq_ok, BResult.ok.injEq] at h
          subst h
          have hbs : sectors[back.sector_index]? = some bsec := vecGet_ok.mp hb
          have hJFB : J front.sector_index back.sector_index = true :=
            count_one_mem (hcnt _ _ hσ fsec hfs) hm1
          by_cases hm2 : front.sector_index ∈ bsec.neighbours
          · rw [if_pos hm2] at hsec
            rw [hcnt s t hst sec hsec]
            refine (if_or_eq ?_).symm
            rintro (⟨h1, h2⟩ | ⟨h1, h2⟩)
            · rw [← h1, ← h2]; exact hJFB
            · rw [← h2, ← h1, hJsym]; exact hJFB
          · rw [if_neg hm2] at hsec
            by_cases hsB : s = back.sector_index
            · rw [hsB, List.getElem?_set_eq_of_lt _ (List.getElem?_eq_some.mp hbs).1] at hsec
              simp only [Option.some.injEq] at hsec
              subst hsec
              show (bsec.neighbours ++ [front.sector_index]).count t = _
              rw [count_push]
              by_cases htF : front.sector_index = t
              · rw [if_pos htF, if_pos (Or.inr (Or.inr ⟨htF, hsB.symm⟩)),
                  List.count_eq_zero.mpr (htF ▸ hm2)]
              · rw [if_neg htF, Nat.add_zero,
                  hcnt back.sector_index t (hsB ▸ hst) bsec hbs, hsB]
                refine (if_or_eq ?_).symm
                rintro (⟨h1, h2⟩ | ⟨h1, h2⟩)
                · exact absurd h1 hσ
                · exact absurd h1 htF
            · rw [List.getElem?_set_ne (fun hh => hsB hh.symm)] at hsec
              rw [hcnt s t hst sec hsec]
              refine (if_or_eq ?_).symm
              rintro (⟨h1, h2⟩ | ⟨h1, h2⟩)
              · rw [← h1, ← h2]; exact hJFB
              · exact absurd h2.symm hsB
        | err m => simp [hb] at h
        | panic m => simp [hb] at h
      · rw [if_neg hm1] at h
        cases hb : vecGet (sectors.set front.sector_index
            { fsec with neighbours := fsec.neighbours ++ [back.sector_index] })
            back.sector_index with
        | ok bsec =>
          simp only [hb, BResult.ok_bind, BResult.pure_eq_ok, BResult.ok.injEq] at h
          subst h
          have hbsA : ((sectors.set front.sector_index
              { fsec with neighbours :=
                  fsec.neighbours ++ [back.sector_index] })[back.sector_index]?) =
              some bsec := vecGet_ok.mp hb
          have hbs : sectors[back.sector_index]? = some bsec := by
            rw [List.getElem?_set_ne hσ] at hbsA
            exact hbsA
          by_cases hm2 : front.sector_index ∈ bsec.neighbours
          · rw [if_pos hm2] at hsec
            have hJBF : J back.sector_index front.sector_index = true :=
              count_one_mem (hcnt _ _ (Ne.symm hσ) bsec hbs) hm2
            by_cases hsF : s = front.sector_index
            · rw [hsF, List.getElem?_set_eq_of_lt _ (List.getElem?_eq_some.mp hfs).1] at hsec
              simp only [Option.some.injEq] at hsec
              subst hsec
              show (fsec.neighbours ++ [back.sector_index]).count t = _
              rw [count_push]
              by_cases htB : back.sector_index = t
              · rw [if_pos htB, if_pos (Or.inr (Or.inl ⟨hsF.symm, htB⟩)),
                  List.count_eq_zero.mpr (htB ▸ hm1)]
              · rw [if_neg htB, Nat.add_zero,
                  hcnt front.sector_index t (hsF ▸ hst) fsec hfs, hsF]
                refine (if_or_eq ?_).symm
                rintro (⟨h1, h2⟩ | ⟨h1, h2⟩)
                · exact absurd h2 htB
                · exact absurd h2.symm hσ
            · rw [List.getElem?_set_ne (fun hh => hsF hh.symm)] at hsec
              rw [hcnt s t hst sec hsec]
              refine (if_or_eq ?_).symm
              rintro (⟨h1, h2⟩ | ⟨h1, h2⟩)
              · exact absurd h1.symm hsF
              · rw [← h2, ← h1]; exact hJBF
          · rw [if_neg hm2] at hsec
            by_cases hsB : s = back.sector_index
            · rw [hsB, List.getElem?_set_eq_of_lt _ (List.getElem?_eq_some.mp hbsA).1] at hsec
              simp only [Option.some.injEq] at hsec
              subst hsec
              show (bsec.neighbours ++ [front.sector_index]).count t = _
              rw [count_push]
              by_cases htF : front.sector_index = t
              · rw [if_pos htF, if_pos (Or.inr (Or.inr ⟨htF, hsB.symm⟩)),
                  List.count_eq_zero.mpr (htF ▸ hm2)]
              · rw [if_neg htF, Nat.add_zero,
                  hcnt back.sector_index t (hsB ▸ hst) bsec hbs, hsB]
                refine (if_or_eq ?_).symm
                rintro (⟨h1, h2⟩ | ⟨h1, h2⟩)
                · exact absurd h1 hσ
                · exact absurd h1 htF
            · rw [List.getElem?_set_ne (fun hh => hsB hh.symm)] at hsec
              by_cases hsF : s = front.sector_index
              · rw [hsF, List.getElem?_set_eq_of_lt _ (List.getElem?_eq_some.mp hfs).1] at hsec
                simp only [Option.some.injEq] at hsec
                subst hsec
                show (fsec.neighbours ++ [back.sector_index]).count t = _
                rw [count_push]
                by_cases htB : back.sector_index = t
                · rw [if_pos htB, if_pos (Or.inr (Or.inl ⟨hsF.symm, htB⟩)),
                    List.count_eq_zero.mpr (htB ▸ hm1)]
                · rw [if_neg htB, Nat.add_zero,
                    hcnt front.sector_index t (hsF ▸ hst) fsec hfs, hsF]
                  refine (if_or_eq ?_).symm
                  rintro (⟨h1, h2⟩ | ⟨h1, h2⟩)
                  · exact absurd h2 htB
                  · exact absurd h2.symm hσ
              · rw [List.getElem?_set_ne (fun hh => hsF hh.symm)] at hsec
                rw [hcnt s t hst sec hsec]
                refine (if_or_eq ?_).symm
                rintro (⟨h1, h2⟩ | ⟨h1, h2⟩)
                · exact absurd h1.symm hsF
                · exact absurd h2.symm hsB
        | err m => simp [hb] at h
        | panic m => simp [hb] at h
    | err m => simp [hf] at h
    | panic m => simp [hf] at h

end Ferret
namespace Ferret

theorem neighbourSkyStep_counts {sd0 sd1 : Option Sidedef} {sectors : List Sector}
    {a b : Option Sidedef} {sec' : List Sector}
    (h : neighbourSkyStep sd0 sd1 sectors = .ok (a, b, sec'))
    (J : Nat → Nat → Bool) (hJsym : ∀ x y : Nat, J x y = J y x)
    (hcnt : ∀ (x y : Nat), x ≠ y → ∀ sec, sectors[x]? = some sec →
      sec.neighbours.count y = if J x y then 1 else 0) :
    ∀ (s t : Nat), s ≠ t → ∀ sec, sec'[s]? = some sec →
      sec.neighbours.count t =
        if (J s t || sidePairJoin sd0 sd1 s t) then 1 else 0 := by
  cases sd0 with
  | none =>
    simp only [neighbourSkyStep, BResult.pure_eq_ok, BResult.ok.injEq, Prod.mk.injEq] at h
    obtain ⟨-, -, h3⟩ := h
    subst h3
    intro s t hst sec hsec
    simp only [sidePairJoin_none1, Bool.or_false]
    exact hcnt s t hst sec hsec
  | some front =>
    cases sd1 with
    | none =>
      simp only [neighbourSkyStep, BResult.pure_eq_ok, BResult.ok.injEq, Prod.mk.injEq] at h
      obtain ⟨-, -, h3⟩ := h
      subst h3
      intro s t hst sec hsec
      simp only [sidePairJoin_none2, Bool.or_false]
      exact hcnt s t hst sec hsec
    | some back =>
      unfold neighbourSkyStep at h
      cases hn : addNeighbours front back sectors with
      | ok sectorsN =>
        simp only [hn, BResult.ok_bind] at h
        cases hf2 : vecGet sectorsN front.sector_index with
        | ok fsec2 =>
          simp only [hf2, BResult.ok_bind] at h
          cases hb2 : vecGet sectorsN back.sector_index with
          | ok bsec2 =>
            simp only [hb2, BResult.ok_bind] at h
            have hsec' : sec' = sectorsN := by
              split at h <;>
              · simp only [BResult.pure_eq_ok, BResult.ok.injEq, Prod.mk.injEq] at h
                exact h.2.2.symm
            subst hsec'
            simp only [sidePairJoin]
            exact addNeighbours_counts hn J hJsym hcnt
          | err m => simp [hb2] at h
          | panic m => simp [hb2] at h
        | err m => simp [hf2] at h
        | panic m => simp [hf2] at h
      | err m => simp [hn] at h
      | panic m => simp [hn] at h

theorem list_any_congr {α : Type} {l : List α} {f g : α → Bool}
    (h : ∀ x ∈ l, f x = g x) : l.any f = l.any g := by
  induction l with
  | nil => rfl
  | cons a l ih =>
    rw [List.any_cons, List.any_cons, h a (by simp),
      ih fun x hx => h x (by simp [hx])]

theorem joinedOne_symm (S : List Sidedef) (d : LinedefData) (s t : Nat) :
    joinedOne S d s t = joinedOne S d t s := by
  rcases hdd : d.sidedef_indices with ⟨of, ob⟩
  cases of with
  | none => simp [joinedOne, hdd]
  | some f =>
    cases ob with
    | none => simp [joinedOne, hdd]
    | some b =>
      simp only [joinedOne, hdd]
      cases S[f]? with
      | none => cases S[b]? <;> rfl
      | some df =>
        cases S[b]? with
        | none => rfl
        | some db => exact Bool.or_comm _ _

theorem joinedAny_symm (S : List Sidedef) (ds : List LinedefData) (s t : Nat) :
    joinedAny S ds s t = joinedAny S ds t s :=
  list_any_congr fun d _ => joinedOne_symm S d s t

theorem joinedOne_none1 {d : LinedefData} (hd : d.sidedef_indices.1 = Option.none)
    (S : List Sidedef) (s t : Nat) : joinedOne S d s t = false := by
  rcases hdd : d.sidedef_indices with ⟨of, ob⟩
  rw [hdd] at hd
  simp only at hd
  subst hd
  simp [joinedOne, hdd]

theorem joinedOne_none2 {d : LinedefData} (hd : d.sidedef_indices.2 = Option.none)
    (S : List Sidedef) (s t : Nat) : joinedOne S d s t = false := by
  rcases hdd : d.sidedef_indices with ⟨of, ob⟩
  rw [hdd] at hd
  simp only at hd
  subst hd
  cases of <;> simp [joinedOne, hdd]

theorem joinedOne_some {d : LinedefData} {x1 x2 : Nat}
    (h1 : d.sidedef_indices.1 = some x1) (h2 : d.sidedef_indices.2 = some x2)
    {S : List Sidedef} {df db : Sidedef} (hS1 : S[x1]? = some df) (hS2 : S[x2]? = some db)
    (s t : Nat) :
    joinedOne S d s t = ((df.sector_index == s && db.sector_index == t) ||
                         (df.sector_index == t && db.sector_index == s)) := by
  rcases hdd : d.sidedef_indices with ⟨of, ob⟩
  rw [hdd] at h1 h2
  simp only at h1 h2
  subst h1
  subst h2
  simp [joinedOne, hdd, hS1, hS2]

end Ferret

namespace Ferret

theorem buildLinedefs_counts {v : List Vec2} {S : List Sidedef} :
    ∀ (ds : List LinedefData) (slots : List (Option Sidedef)) (sectors : List Sector)
      (res : List Linedef × List (Option Sidedef) × List Sector),
      buildLinedefs v ds slots sectors = .ok res →
      slots.length = S.length →
      (∀ (j : Nat) (oa : Option Sidedef), slots[j]? = some oa →
        oa = Option.none ∨ S[j]? = oa) →
      ∀ (J : Nat → Nat → Bool), (∀ x y : Nat, J x y = J y x) →
      (∀ (x y : Nat), x ≠ y → ∀ sec, sectors[x]? = some sec →
        sec.neighbours.count y = if J x y then 1 else 0) →
      ∀ (s t : Nat), s ≠ t → ∀ sec, res.2.2[s]? = some sec →
        sec.neighbours.count t =
          if (J s t || joinedAny S ds s t) then 1 else 0 := by
  intro ds
  induction ds with
  | nil =>
    intro slots sectors res h hlen hinv J hJsym hcnt s t hst sec hsec
    simp only [buildLinedefs, BResult.ok.injEq] at h
    subst h
    simp only [joinedAny, List.any_nil, Bool.or_false]
    exact hcnt s t hst sec hsec
  | cons d0 rest ih =>
    intro slots sectors res h hlen hinv J hJsym hcnt s t hst sec hsec
    rw [buildLinedefs] at h
    cases hstep : buildLinedef v d0 slots sectors with
    | ok p =>
      simp only [hstep, BResult.ok_bind] at h
      obtain ⟨ld, slots1, sectors1⟩ := p
      cases hrest : buildLinedefs v rest slots1 sectors1 with
      | ok q =>
        simp only [hrest, BResult.ok_bind, BResult.ok.injEq] at h
        obtain ⟨lds, slots2, sectors2⟩ := q
        subst h
        have hsec' : sectors2[s]? = some sec := hsec
        obtain ⟨sd0, slotsA, sd1, sd0', sd1', v0, v1, ht1, ht2, hns, -, -, -⟩ :=
          buildLinedef_ok_inv hstep
        obtain ⟨hlenA, hinvA, -⟩ := takeSlot_inv ht1 hlen hinv
        obtain ⟨hlen1, hinv1, -⟩ := takeSlot_inv ht2 hlenA hinvA
        have hstepcnt := neighbourSkyStep_counts hns J hJsym hcnt
        have hmatch : ∀ s' t' : Nat, sidePairJoin sd0 sd1 s' t' = joinedOne S d0 s' t' := by
          intro s' t'
          rcases takeSlot_ok ht1 with ⟨ho1, hsd0, -⟩ | ⟨x1, sdv1, ho1, hslot1, hsd0, -⟩
          · subst hsd0
            rw [sidePairJoin_none1, joinedOne_none1 ho1]
          · rcases hinv x1 _ hslot1 with hbad | hS1
            · cases hbad
            · subst hsd0
              rcases takeSlot_ok ht2 with ⟨ho2, hsd1, -⟩ | ⟨x2, sdv2, ho2, hslot2, hsd1, -⟩
              · subst hsd1
                rw [sidePairJoin_none2, joinedOne_none2 ho2]
              · rcases hinvA x2 _ hslot2 with hbad | hS2
                · cases hbad
                · subst hsd1
                  rw [joinedOne_some ho1 ho2 hS1 hS2]
                  rfl
        have hcnt1 : ∀ (x y : Nat), x ≠ y → ∀ sec, sectors1[x]? = some sec →
            sec.neighbours.count y = if (J x y || joinedOne S d0 x y) then 1 else 0 := by
          intro x y hxy sec2 hx
          have hh := hstepcnt x y hxy sec2 hx
          rw [hmatch x y] at hh
          exact hh
        have hJ1sym : ∀ x y : Nat,
            (J x y || joinedOne S d0 x y) = (J y x || joinedOne S d0 y x) := by
          intro x y
          rw [hJsym, joinedOne_symm]
        have hrec := ih slots1 sectors1 (lds, slots2, sectors2) hrest hlen1 hinv1
          (fun x y => J x y || joinedOne S d0 x y) hJ1sym hcnt1 s t hst sec hsec'
        rw [hrec]
        simp only [joinedAny, List.any_cons]
        simp only [Bool.or_assoc]
      | err m => simp [hrest] at h
      | panic m => simp [hrest] at h
    | err m => simp [hstep] at h
    | panic m => simp [hstep] at h

end Ferret

namespace Ferret

theorem joinedAny_eq_joinedData {md : MapData} {S : List Sidedef}
    (hlen : S.length = md.sidedefs.length)
    (hget : ∀ (i : Nat) (d : SidedefData), md.sidedefs[i]? = some d →
      ∃ sd, S[i]? = some sd ∧ sd.sector_index = d.sector_index)
    (s t : Nat) :
    joinedAny S md.linedefs s t = joinedData md s t := by
  unfold joinedAny joinedData
  apply list_any_congr
  intro d _
  rcases hdd : d.sidedef_indices with ⟨of, ob⟩
  cases of with
  | none => simp [joinedOne, hdd]
  | some f =>
    cases ob with
    | none => simp [joinedOne, hdd]
    | some b =>
      simp only [joinedOne, hdd]
      cases hf : md.sidedefs[f]? with
      | none =>
        have hSf : S[f]? = Option.none := by
          rw [List.getElem?_eq_none_iff] at hf ⊢
          omega
        simp [hSf]
      | some df =>
        obtain ⟨sdf, hSf, hsf⟩ := hget f df hf
        cases hb : md.sidedefs[b]? with
        | none =>
          have hSb : S[b]? = Option.none := by
            rw [List.getElem?_eq_none_iff] at hb ⊢
            omega
          simp [hSf, hSb]
        | some db =>
          obtain ⟨sdb, hSb, hsb⟩ := hget b db hb
          simp [hSf, hSb, hsf, hsb]

/-- Claim C5: in the built map, two distinct sectors joined by a
two-sided linedef whose two sides reference the two sectors appear
exactly once in each other's neighbour list, and two sectors joined by
no such linedef do not appear in each other's neighbour lists. -/
theorem claim_c5 {md : MapData} {sky_name : String} {fs ws : Store Unit Unit} {m : Map}
    (hb : buildMap md sky_name fs ws = .ok m)
    {s t : Nat} (hst : s ≠ t)
    {ds dt : SectorData} (hds : md.sectors[s]? = some ds)
    (hdt : md.sectors[t]? = some dt) :
    ∃ secS secT, m.sectors[s]? = some secS ∧ m.sectors[t]? = some secT ∧
      secS.neighbours.count t = (if joinedData md s t then 1 else 0) ∧
      secT.neighbours.count s = (if joinedData md s t then 1 else 0) := by
  obtain ⟨lres, segs, sres, hbl, hsegs, hss, hm⟩ := buildMap_ok_inv hb
  obtain ⟨hmlen, hminv⟩ :=
    mapSome_inv (buildSidedefs md.sidedefs [] (Store.load trivialImport sky_name ws).2).1
  have hcnt0 : ∀ (x y : Nat), x ≠ y → ∀ sec,
      (buildSectors md.sectors [] fs).1[x]? = some sec →
      sec.neighbours.count y = if (fun (_ _ : Nat) => false) x y then 1 else 0 := by
    intro x y hxy sec hx
    cases hdx : md.sectors[x]? with
    | none =>
      rw [List.getElem?_eq_none_iff] at hdx
      rw [List.getElem?_eq_none_iff.mpr (by rw [buildSectors_length]; exact hdx)] at hx
      exact Option.noConfusion hx
    | some d =>
      obtain ⟨sec0, hsec0, -, -, -, -, -, hneigh, -⟩ :=
        buildSectors_get md.sectors [] fs x d hdx
      rw [hx] at hsec0
      have he : sec = sec0 := by injection hsec0
      rw [he, hneigh]
      simp
  have hJ := buildLinedefs_counts md.linedefs
      ((buildSidedefs md.sidedefs [] (Store.load trivialImport sky_name ws).2).1.map some)
      (buildSectors md.sectors [] fs).1 lres hbl hmlen hminv
      (fun _ _ => false) (fun _ _ => rfl) hcnt0
  obtain ⟨-, hsl2, hsk2, -⟩ := buildLinedefs_basic md.linedefs _ _ lres hbl hmlen hminv
  obtain ⟨hsublen, hsubkey⟩ := buildSubsectors_basic md.gl_ssect 0 lres.2.2 sres hss
  have hEq := joinedAny_eq_joinedData
    (buildSidedefs_length md.sidedefs [] (Store.load trivialImport sky_name ws).2)
    (fun i d hd => buildSidedefs_get md.sidedefs [] (Store.load trivialImport sky_name ws).2 i d hd)
  obtain ⟨sec0s, hsec0s, -, -, -, -, -, -, -⟩ := buildSectors_get md.sectors [] fs s ds hds
  obtain ⟨sec0t, hsec0t, -, -, -, -, -, -, -⟩ := buildSectors_get md.sectors [] fs t dt hdt
  have h1s : (lres.2.2[s]?).map sectorKey = some (sectorKey sec0s) := by
    rw [hsk2 s, hsec0s]
    rfl
  have h1t : (lres.2.2[t]?).map sectorKey = some (sectorKey sec0t) := by
    rw [hsk2 t, hsec0t]
    rfl
  obtain ⟨sec1s, hsec1s, -⟩ := map_key_some h1s
  obtain ⟨sec1t, hsec1t, -⟩ := map_key_some h1t
  have hcnts := hJ s t hst sec1s hsec1s
  have hcntt := hJ t s (Ne.symm hst) sec1t hsec1t
  have h2s : (sres.2[s]?).map sectorKeySub = some (sectorKeySub sec1s) := by
    rw [hsubkey s, hsec1s]
    rfl
  have h2t : (sres.2[t]?).map sectorKeySub = some (sectorKeySub sec1t) := by
    rw [hsubkey t, hsec1t]
    rfl
  obtain ⟨secS, hsecS, hkeyS⟩ := map_key_some h2s
  obtain ⟨secT, hsecT, hkeyT⟩ := map_key_some h2t
  have hnS : secS.neighbours = sec1s.neighbours := by
    simp only [sectorKeySub, Prod.mk.injEq] at hkeyS
    exact hkeyS.2.2.2.2.2.2
  have hnT : secT.neighbours = sec1t.neighbours := by
    simp only [sectorKeySub, Prod.mk.injEq] at hkeyT
    exact hkeyT.2.2.2.2.2.2
  have e0 : joinedAny (buildSidedefs md.sidedefs []
      (Store.load trivialImport sky_name ws).2).1 md.linedefs s t = joinedData md s t :=
    hEq s t
  have e1 : joinedAny (buildSidedefs md.sidedefs []
      (Store.load trivialImport sky_name ws).2).1 md.linedefs t s = joinedData md s t :=
    (joinedAny_symm _ _ t s).trans (hEq s t)
  refine ⟨secS, secT, ?_, ?_, ?_, ?_⟩
  · rw [hm]
    exact hsecS
  · rw [hm]
    exact hsecT
  · rw [hnS, hcnts]
    simp only [Bool.false_or, e0]
  · rw [hnT, hcntt]
    simp only [Bool.false_or, e1]

/-- Witness for C5: `c5data` has one two-sided linedef joining sectors
0 and 1; the built map records each sector exactly once in the other's
neighbour list. -/
theorem claim_c5_witness :
    buildMap c5data "SKY1" Store.empty Store.empty = .ok c5map ∧
    joinedData c5data 0 1 = true ∧
    (∃ secS secT, c5map.sectors[0]? = some secS ∧ c5map.sectors[1]? = some secT ∧
      secS.neighbours.count 1 = (if joinedData c5data 0 1 then 1 else 0) ∧
      secT.neighbours.count 0 = (if joinedData c5data 0 1 then 1 else 0)) := by
  refine ⟨rfl, rfl, ?_⟩
  exact @claim_c5 c5data "SKY1" Store.empty Store.empty c5map rfl 0 1 (by decide)
    sectorZero { sectorZero with special_type := 5 } rfl rfl

end Ferret
